import Mathlib

/-!
A shallow embedding of the core analysis pipeline and in-memory stores of the
Advanced_Dashboard repository (alert store, anomaly detector, forecast engine,
risk scorer, recommendation engine, feature extractor, audit store, alert
fingerprinting), together with theorems settling the specification's claims.

Modelling conventions used throughout:
* Python `float` arithmetic is modelled exactly over `ℚ` (the programs use
  only +, -, *, /, comparisons, `max`/`min`, `round(x, 2)` and `int(x)`);
  IEEE rounding of individual operations is not modelled.
* `datetime` values are modelled as numbers of minutes since an arbitrary
  epoch: integers (`ℤ`) for the alert store, whose claims only involve
  ordered differences, rationals (`ℚ`) elsewhere; `isoformat` /
  `fromisoformat` round-trip between a datetime and its ISO string, so
  timestamp record fields that the source keeps as ISO strings are modelled
  directly by the underlying time number (`Option ℤ`, `none` standing for
  the falsy empty string).
* Python `dict`s keyed by strings are modelled as association lists with
  insertion-order semantics: overwriting a key keeps its position, inserting a
  fresh key appends.
* `datetime.now()` (the injected `time_provider`) is passed explicitly as a
  `now` argument to each operation.
* Raising code is modelled with `Except`: an operation returns its result (or
  error) together with the post-state, the post-state being the unchanged
  pre-state when the exception is raised before any mutation, as in source.
-/

namespace AdvDash

/-- Lookup in an association list, modelling Python `dict.get`: the first
binding of the key (association lists built by `aset` have unique keys). -/
def alookup {α : Type} (l : List (String × α)) (k : String) : Option α :=
  (l.find? (fun p => decide (p.1 = k))).map (·.2)

/-- Write a key in an association list, modelling Python `dict.__setitem__`:
replace in place if the key is bound, append otherwise. -/
def aset {α : Type} (k : String) (v : α) : List (String × α) → List (String × α)
  | [] => [(k, v)]
  | p :: t => if p.1 = k then (k, v) :: t else p :: aset k v t

/-- Clamp helper shared by the engines (`_clamp` in source):
`max(low, min(high, value))`. -/
def clamp (value low high : ℚ) : ℚ := max low (min high value)

/-- Python `int(x)` on a float: truncation toward zero. -/
def pyTrunc (q : ℚ) : ℤ := if q < 0 then ⌈q⌉ else ⌊q⌋

/-- Round-half-to-even to an integer, the rounding Python's `round` uses. -/
def roundHalfEven (q : ℚ) : ℤ :=
  let f := ⌊q⌋
  let r := q - (f : ℚ)
  if r < 1/2 then f
  else if 1/2 < r then f + 1
  else if f % 2 = 0 then f else f + 1

/-- Python `round(x, 2)`: banker's rounding at two decimal places. -/
def round2 (q : ℚ) : ℚ := ((roundHalfEven (q * 100) : ℤ) : ℚ) / 100

/-- Python exceptions observable in the modelled code. -/
inductive PyErr where
  | keyError (msg : String)
  | valueError
  | attributeError
  | overflowError
deriving DecidableEq

/-! ### AlertStore (src/alerts/store.py) -/

/-- The keys of `Alert.meta` that the store itself reads or writes
(`occurrences`, `last_message`, `ack_by`, `resolved_by`); other free-form
meta entries are carried opaquely by the surrounding record and never touched
by the store, so they are not modelled. -/
structure AlertMeta where
  occurrences : Option ℤ := none
  last_message : Option String := none
  ack_by : Option String := none
  resolved_by : Option String := none
deriving DecidableEq

/-- The `Alert` pydantic model (src/backend/app/services/alerts/models.py).
`created_at`/`updated_at` are ISO strings in source, modelled as `Option ℤ`
(minutes; `none` is the falsy empty string). `entity` values are the `str()`
of the original values. `explanation` is an opaque payload. -/
structure Alert where
  id : String
  type : String
  severity : String
  status : String
  title : String
  message : String
  source : String
  created_at : Option ℤ
  updated_at : Option ℤ
  fingerprint : String
  entity : List (String × String)
  explanation : Option String
  meta : Option AlertMeta
deriving DecidableEq

/-- State of `AlertStore`: `_alerts` (id → Alert), `_fingerprint_index`
(fingerprint → id), `_dedupe_window` (minutes) and `_sequence`. -/
structure AlertStoreSt where
  alerts : List (String × Alert)
  fpIndex : List (String × String)
  window : ℤ
  seq : ℕ
deriving DecidableEq

/-- A fresh `AlertStore` (constructor with `dedupe_window_minutes`, default 10). -/
def AlertStoreSt.init (dedupeWindowMinutes : ℤ := 10) : AlertStoreSt :=
  { alerts := [], fpIndex := [], window := dedupeWindowMinutes, seq := 0 }

/-- Zero-padded rendering used by `f"alert-{n:06d}"`. -/
def pad6 (s : String) : String :=
  String.mk (List.replicate (6 - s.length) '0') ++ s

/-- The id `_new_id` renders for sequence value `n`. -/
def mkAlertId (n : ℕ) : String := "alert-" ++ pad6 (toString n)

/-- `AlertStore._new_id`: increment the sequence and render the new id. -/
def new_id (s : AlertStoreSt) : String × AlertStoreSt :=
  (mkAlertId (s.seq + 1), { s with seq := s.seq + 1 })

/-- The model record built by the fall-through branch of `upsert_alert`:
the incoming alert with its id assigned, timestamps defaulted to `now` when
falsy, and `occurrences` seeded (`{"occurrences": 1, **(alert.meta or {})}` —
a caller-supplied count wins over the seed). -/
def createdAlert (alert : Alert) (now : ℤ) (newId : String) : Alert :=
  { alert with
    id := newId
    created_at := some (alert.created_at.getD now)
    updated_at := some (alert.updated_at.getD now)
    meta := some { alert.meta.getD {} with
      occurrences := some ((alert.meta.getD {}).occurrences.getD 1) } }

/-- The merged record the dedupe branch of `upsert_alert` builds: bumped
`occurrences`, refreshed message/`last_message`/`updated_at`, all other
fields (id included) untouched. -/
def mergedAlert (existing : Alert) (msg : String) (now : ℤ) : Alert :=
  { existing with
    message := msg
    updated_at := some now
    meta := some { existing.meta.getD {} with
      occurrences := some ((existing.meta.getD {}).occurrences.getD 1 + 1)
      last_message := some msg } }

/-- The fall-through tail of `upsert_alert` (source lines 44-64): build the
stored model (assigning a fresh id when `alert.id` is falsy) and index it by
id and fingerprint. -/
def upsertCreate (s : AlertStoreSt) (alert : Alert) (now : ℤ) :
    Except PyErr Alert × AlertStoreSt :=
  let s1 := if alert.id = "" then (new_id s).2 else s
  let newId := if alert.id = "" then (new_id s).1 else alert.id
  let model := createdAlert alert now newId
  (.ok model,
   { s1 with
     alerts := aset newId model s1.alerts
     fpIndex := aset alert.fingerprint newId s1.fpIndex })

/-- `AlertStore.upsert_alert`: look up the fingerprint; if it resolves to a
stored record whose last update is within the dedupe window, merge in place
(increment `occurrences`, refresh message/timestamp/meta) and return the
existing record; otherwise fall through to `upsertCreate`. Parsing the stored
`updated_at` raises ValueError on the (unreachable from the API) empty
string. -/
def upsert_alert (s : AlertStoreSt) (alert : Alert) (now : ℤ) :
    Except PyErr Alert × AlertStoreSt :=
  match alookup s.fpIndex alert.fingerprint with
  | some existingId =>
    if existingId = "" then upsertCreate s alert now
    else
      match alookup s.alerts existingId with
      | some existing =>
        match existing.updated_at with
        | none => (.error .valueError, s)
        | some lastUpdated =>
          if now - lastUpdated ≤ s.window then
            let upd := mergedAlert existing alert.message now
            (.ok upd, { s with alerts := aset existing.id upd s.alerts })
          else upsertCreate s alert now
      | none => upsertCreate s alert now
  | none => upsertCreate s alert now

/-- The record mutation `acknowledge` performs on a found alert. -/
def ackedAlert (alert : Alert) (actor : String) (now : ℤ) : Alert :=
  { alert with status := "acknowledged", updated_at := some now
               meta := some { alert.meta.getD {} with ack_by := some actor } }

/-- `AlertStore.acknowledge`: KeyError on unknown id, otherwise set status to
"acknowledged", refresh `updated_at`, record the actor under `ack_by`. -/
def acknowledge (s : AlertStoreSt) (alertId actor : String) (now : ℤ) :
    Except PyErr Alert × AlertStoreSt :=
  match alookup s.alerts alertId with
  | none => (.error (.keyError ("Alert not found: " ++ alertId)), s)
  | some alert =>
    let upd := ackedAlert alert actor now
    (.ok upd, { s with alerts := aset alertId upd s.alerts })

/-- The record mutation `resolve` performs on a found alert. -/
def resolvedAlert (alert : Alert) (actor : String) (now : ℤ) : Alert :=
  { alert with status := "resolved", updated_at := some now
               meta := some { alert.meta.getD {} with resolved_by := some actor } }

/-- `AlertStore.resolve`: KeyError on unknown id, otherwise set status to
"resolved", refresh `updated_at`, record the actor under `resolved_by`. -/
def resolve (s : AlertStoreSt) (alertId actor : String) (now : ℤ) :
    Except PyErr Alert × AlertStoreSt :=
  match alookup s.alerts alertId with
  | none => (.error (.keyError ("Alert not found: " ++ alertId)), s)
  | some alert =>
    let upd := resolvedAlert alert actor now
    (.ok upd, { s with alerts := aset alertId upd s.alerts })

/-- `AlertStore.clear_all`: return the number of alerts removed and empty
both the alert map and the fingerprint index. -/
def clear_all (s : AlertStoreSt) : ℕ × AlertStoreSt :=
  (s.alerts.length, { s with alerts := [], fpIndex := [] })

/-- One API-level operation against the alert store, with its injected
clock value. -/
inductive StoreOp where
  | upsert (a : Alert) (now : ℤ)
  | ack (id actor : String) (now : ℤ)
  | res (id actor : String) (now : ℤ)
  | clear

/-- Run one operation for its state effect. -/
def runOp (s : AlertStoreSt) : StoreOp → AlertStoreSt
  | .upsert a t => (upsert_alert s a t).2
  | .ack i ac t => (acknowledge s i ac t).2
  | .res i ac t => (resolve s i ac t).2
  | .clear => (clear_all s).2

/-- Run a sequence of operations from a starting state. -/
def runOps (ops : List StoreOp) (s : AlertStoreSt) : AlertStoreSt :=
  ops.foldl runOp s

/-- The store's structural invariant: every id the fingerprint index points
at is a currently stored alert; stored keys are pairwise distinct; and each
stored record carries its own key as its `id` field (so distinct records
never share an id). -/
def StoreInv (s : AlertStoreSt) : Prop :=
  (∀ fp id, alookup s.fpIndex fp = some id → (alookup s.alerts id).isSome) ∧
  (s.alerts.map Prod.fst).Nodup ∧
  (∀ p ∈ s.alerts, p.2.id = p.1)

/-! ### Typed pipeline records (src/backend/app/services/ai/schemas.py)

The pipeline functions receive `TypedDict`-shaped data produced by the
orchestrator; they are modelled as records with the schema's field types
(floats as `ℚ`, datetimes as `ℚ` minutes, literal enums as `String`). -/

/-- The `FeatureVector` TypedDict. -/
structure FeatureVector where
  cpu_usage : ℚ
  memory_usage : ℚ
  storage_usage : ℚ
  network_io : ℚ
  anomaly_count : ℤ
  timestamp : ℚ
deriving DecidableEq

/-- The `AgentAnomaly` TypedDict (the optional `explanation_detail` is
attached by the explainability layer afterwards and is not modelled). -/
structure AgentAnomaly where
  type : String
  severity : String
  confidence : ℚ
  explanation : String
deriving DecidableEq

/-- One entry of `forecast_series`. -/
structure ForecastEntry where
  timestamp : ℚ
  value : ℚ
  lower_bound : ℚ
  upper_bound : ℚ
deriving DecidableEq

/-- The `ForecastResult` TypedDict. -/
structure ForecastResult where
  predicted_peak : ℚ
  peak_time : ℚ
  trend : String
  risk_level : String
  confidence : ℚ
  forecast_series : List ForecastEntry
deriving DecidableEq

/-- The `Recommendation` TypedDict. -/
structure Recommendation where
  type : String
  priority : String
  target : String
  reason : String
  confidence : ℚ
  impact : String
deriving DecidableEq

/-- The `SlaRisk` TypedDict. -/
structure SlaRisk where
  risk_score : ℤ
  risk_level : String
  time_to_impact_minutes : ℤ
  drivers : List String
  confidence : ℚ
deriving DecidableEq

/-! ### Anomaly detection (src/backend/app/services/ai/anomaly_engine.py) -/

/-- The `_confidence` helper: `round(clamp(base + over_by / scale, 0.5, 0.99), 2)`. -/
def anomalyConfidence (base overBy scale : ℚ) : ℚ :=
  round2 (clamp (base + overBy / scale) (1/2) (99/100))

/-- The CPU delta against the last history element (`0.0` with no history). -/
def cpuDelta (current : FeatureVector) (history : List FeatureVector) : ℚ :=
  match history.getLast? with
  | some prev => current.cpu_usage - prev.cpu_usage
  | none => 0

/-- The network baseline: mean of the history's `network_io` values, or the
current value when the history is empty. -/
def networkBaseline (current : FeatureVector) (history : List FeatureVector) : ℚ :=
  if history.isEmpty then current.network_io
  else (history.map (·.network_io)).sum / history.length

/-- `detect_anomalies`: threshold/delta rules appended in fixed order
(cpu_spike, memory_pressure, network_spike). -/
def detect_anomalies (current : FeatureVector) (history : List FeatureVector) :
    List AgentAnomaly :=
  let cpu := current.cpu_usage
  let mem := current.memory_usage
  let net := current.network_io
  let delta := cpuDelta current history
  let baseline := networkBaseline current history
  (if 85 < cpu ∨ 20 < delta then
    [{ type := "cpu_spike"
       severity := if 95 ≤ cpu ∨ 30 ≤ delta then "critical" else "high"
       confidence := anomalyConfidence (78/100) (max (cpu - 85) (max (delta - 20) 0)) 30
       explanation :=
         if 85 < cpu then "CPU exceeded 85% threshold"
         else "CPU increased by more than 20% in last window" }]
   else []) ++
  (if 90 < mem then
    [{ type := "memory_pressure"
       severity := if 95 ≤ mem then "critical" else "high"
       confidence := anomalyConfidence (8/10) (mem - 90) 20
       explanation := "Memory exceeded 90% threshold" }]
   else []) ++
  (if 0 < baseline ∧ baseline * (3/2) < net then
    [{ type := "network_spike"
       severity := if net < baseline * 2 then "high" else "critical"
       confidence := anomalyConfidence (74/100) (net - baseline * (3/2)) (max baseline 1)
       explanation := "Network I/O spiked above 1.5x baseline" }]
   else [])

/-! ### Forecasting (src/ai/forecast_engine.py) -/

/-- `_linear_regression`: ordinary least squares over indices `0..n-1`;
degenerate cases return slope `0` with the last value (or `0`) as
intercept. -/
def linear_regression (values : List ℚ) : ℚ × ℚ :=
  let n := values.length
  if n < 2 then (0, (values.getLast?).getD 0)
  else
    let xMean : ℚ := (((List.range n).map fun i => (i : ℚ)).sum) / (n : ℚ)
    let yMean : ℚ := values.sum / (n : ℚ)
    let numerator : ℚ :=
      (((List.range n).map fun i : ℕ =>
        ((i : ℚ) - xMean) * ((values.getD i 0) - yMean)).sum)
    let denominator : ℚ :=
      (((List.range n).map fun i : ℕ => ((i : ℚ) - xMean) ^ 2).sum)
    let slope := if denominator = 0 then 0 else numerator / denominator
    (slope, yMean - slope * xMean)

/-- One entry of the forecast series for offset `i` (1-based), given the fit,
history length `n`, base timestamp and interval. -/
def forecastEntry (slope intercept : ℚ) (n : ℕ) (baseTs intervalMinutes : ℚ)
    (i : ℕ) : ForecastEntry :=
  let predicted := clamp (intercept + slope * ((n : ℚ) + (i : ℚ))) 0 100
  let width := 4 + |slope|
  { timestamp := baseTs + (i : ℚ) * intervalMinutes
    value := round2 predicted
    lower_bound := round2 (clamp (predicted - width) 0 100)
    upper_bound := round2 (clamp (predicted + width) 0 100) }

/-- `forecast_load`: linear extrapolation of the history's CPU values into
`points` future entries spaced `intervalMinutes` apart, with peak, trend,
risk band and variance-based confidence. `now` is `datetime.now()`, used only
by the empty-history default result. -/
def forecast_load (history : List FeatureVector) (points : ℕ := 12)
    (intervalMinutes : ℚ := 5) (now : ℚ := 0) : ForecastResult :=
  match hh : history with
  | [] =>
    { predicted_peak := 0, peak_time := now, trend := "stable"
      risk_level := "low", confidence := 6/10, forecast_series := [] }
  | _ :: _ =>
    let values := history.map (·.cpu_usage)
    let sl := linear_regression values
    let slope := sl.1
    let intercept := sl.2
    let n := values.length
    let baseTs := (history.getLast (by simp [hh])).timestamp
    let series := (List.range points).map fun j =>
      forecastEntry slope intercept n baseTs intervalMinutes (j + 1)
    let peakPair :=
      match series.argmax (·.value) with
      | some e => (e.value, e.timestamp)
      | none => (round2 ((values.getLast?).getD 0), baseTs)
    let predictedPeak := peakPair.1
    let trend := if (1/2 : ℚ) < slope then "increasing"
      else if slope < -(1/2 : ℚ) then "decreasing" else "stable"
    let riskLevel := if 85 ≤ predictedPeak then "high"
      else if 70 ≤ predictedPeak then "moderate" else "low"
    let meanVal := values.sum / (n : ℚ)
    let variance : ℚ := ((values.map fun v => (v - meanVal) ^ 2).sum) / (n : ℚ)
    let volatilityPenalty := min (1/4) (variance / 400)
    { predicted_peak := round2 predictedPeak
      peak_time := peakPair.2
      trend := trend
      risk_level := riskLevel
      confidence := round2 (clamp (9/10 - volatilityPenalty) (6/10) (95/100))
      forecast_series := series }

/-! ### Recommendations (src/ai/recommendation_engine.py) -/

/-- The `_contains` helper: is an anomaly of this type present. -/
def containsAnomaly (anomalies : List AgentAnomaly) (anomalyType : String) : Bool :=
  anomalies.any (fun item => item.type = anomalyType)

/-- The fixed `maintain_baseline` fallback recommendation. -/
def maintainBaselineReco : Recommendation :=
  { type := "maintain_baseline", priority := "low", target := "cluster/all"
    reason := "No critical risk detected", confidence := 8/10
    impact := "Keeps cluster stable while monitoring" }

/-- String rendering of a float in an f-string; kept abstract but injective
enough for the reason message (the claims never inspect it). -/
def ratRepr (q : ℚ) : String := toString q.num ++ "/" ++ toString q.den

/-- `generate_recommendations`: fixed-order independent rules, with the
`maintain_baseline` fallback when none matched. -/
def generate_recommendations (features : FeatureVector)
    (anomalies : List AgentAnomaly) (forecast : ForecastResult) :
    List Recommendation :=
  let recs :=
    (if containsAnomaly anomalies "cpu_spike" then
      [{ type := "scale_deployment", priority := "high", target := "deployment/api"
         reason := "CPU anomaly indicates sustained pressure", confidence := 88/100
         impact := "Reduces throttling and latency" }]
     else []) ++
    (if containsAnomaly anomalies "memory_pressure" then
      [{ type := "tune_memory_limits", priority := "high", target := "deployment/api"
         reason := "Memory exceeded safe operating threshold", confidence := 9/10
         impact := "Prevents OOM kills" }]
     else []) ++
    (if forecast.risk_level = "high" then
      [{ type := "proactive_scaling", priority := "high", target := "deployment/api"
         reason := "Forecast peak at " ++ ratRepr forecast.predicted_peak ++ "%"
         confidence := 87/100
         impact := "Prevents SLA breach during predicted peak" }]
     else []) ++
    (if 85 < features.storage_usage then
      [{ type := "storage_optimization", priority := "medium", target := "namespace/logging"
         reason := "Storage usage is above 85%", confidence := 84/100
         impact := "Avoids storage saturation" }]
     else [])
  if recs.isEmpty then [maintainBaselineReco] else recs

/-! ### SLA risk scoring (src/backend/app/services/alerts/risk.py) -/

/-- The forecast fields `compute_sla_risk` reads. `peak_time` carries the
`datetime.fromisoformat` parse of the ISO string: `none` models a missing or
unparsable value (ValueError/TypeError). -/
structure RiskForecastIn where
  predicted_peak : ℚ
  risk_level : String
  peak_time : Option ℚ
deriving DecidableEq

/-- The `_parse_time_to_impact_minutes` helper:
`max(0, int((peak_dt - current_ts).total_seconds() // 60))`, and `60` when
parsing fails. With times in minutes, floor-dividing the seconds by 60 is
the floor of the minute difference. -/
def parse_time_to_impact_minutes (peakTime : Option ℚ) (currentTs : ℚ) : ℤ :=
  match peakTime with
  | none => 60
  | some peakDt => max 0 ⌊peakDt - currentTs⌋

/-- Per-anomaly severity points: critical 25, high 15, warning 8. -/
def anomalySeverityPoints (a : AgentAnomaly) : ℤ :=
  if a.severity = "critical" then 25
  else if a.severity = "high" then 15
  else if a.severity = "warning" then 8
  else 0

/-- The driver string appended for a critical/high anomaly. -/
def anomalyDriver (a : AgentAnomaly) : Option String :=
  if a.severity = "critical" then some ("Critical anomaly active: " ++ a.type)
  else if a.severity = "high" then some ("High anomaly active: " ++ a.type)
  else none

/-- `compute_sla_risk`: weighted saturation + anomaly severity + forecast and
critical-recommendation adjustments, clamped to [0,100]; risk level from the
score (or forecast-high with ≥25 anomaly points); time-to-impact from the
forecast peak time, capped at 120 for high/critical risk; bucketed
confidence. The current timestamp resolves to the feature vector's datetime
(`now` is `datetime.now()`, the fallback the source uses when the field is
missing or unparsable — with a typed `FeatureVector` input it is unused). -/
def compute_sla_risk (features : FeatureVector) (anomalies : List AgentAnomaly)
    (forecast : RiskForecastIn) (recommendations : List Recommendation)
    (now : ℚ := 0) : SlaRisk :=
  let _ := now
  let cpu := features.cpu_usage
  let memory := features.memory_usage
  let storage := features.storage_usage
  let anomalyScore : ℤ := (anomalies.map anomalySeverityPoints).sum
  let anomalyDrivers : List String := anomalies.filterMap anomalyDriver
  let forecastDrivers : List String :=
    if forecast.risk_level = "high" then ["CPU forecast peak high"]
    else if forecast.risk_level = "moderate" then ["CPU forecast peak moderate"]
    else []
  let peakDrivers : List String :=
    if 95 ≤ forecast.predicted_peak then ["Forecast peak exceeds 95%"] else []
  let criticalRecoCount : ℕ :=
    (recommendations.filter (fun rec => rec.priority = "critical")).length
  let recoDrivers : List String :=
    if criticalRecoCount ≠ 0 then ["Critical recommendations generated"] else []
  let score0 : ℤ :=
    pyTrunc (cpu * (20/100)) + pyTrunc (memory * (18/100)) +
    pyTrunc (storage * (8/100)) + anomalyScore +
    (if forecast.risk_level = "high" then 20
     else if forecast.risk_level = "moderate" then 10 else 0) +
    (if 95 ≤ forecast.predicted_peak then 12 else 0) +
    (if criticalRecoCount ≠ 0 then min ((criticalRecoCount : ℤ) * 4) 12 else 0)
  let score := max 0 (min 100 score0)
  let riskLevel :=
    if 85 ≤ score ∨ (forecast.risk_level = "high" ∧ 25 ≤ anomalyScore) then "critical"
    else if 65 ≤ score then "high"
    else if 40 ≤ score then "moderate"
    else "low"
  let currentTs := features.timestamp
  let tti0 := parse_time_to_impact_minutes forecast.peak_time currentTs
  let tti := if (riskLevel = "high" ∨ riskLevel = "critical") ∧ 120 < tti0 then 120 else tti0
  let drivers0 := anomalyDrivers ++ forecastDrivers ++ peakDrivers ++ recoDrivers
  let conf0 : ℚ := 72/100 +
    (if anomalies.isEmpty then 0 else 1/10) +
    (if forecast.risk_level = "high" ∨ forecast.risk_level = "moderate" then 8/100 else 0) +
    (if 3 ≤ drivers0.length then 5/100 else 0)
  { risk_score := score
    risk_level := riskLevel
    time_to_impact_minutes := tti
    drivers := if drivers0.isEmpty
      then ["No major saturation or anomaly drivers detected"] else drivers0
    confidence := round2 (max (1/2) (min (97/100) conf0)) }

/-! ### Audit store (src/audit/store.py) -/

/-- The `AuditEvent` pydantic model; `metadata` is an opaque mapping. -/
structure AuditEvent where
  id : String
  ts : String
  actor_email : String
  actor_role : String
  action : String
  target_id : Option String
  metadata : List (String × String)
deriving DecidableEq

/-- The acting principal passed to `list_events` (email and role). -/
structure Actor where
  email : String
  role : String
deriving DecidableEq

/-- State of `AuditStore`: bounded event list and id sequence. -/
structure AuditStoreSt where
  maxSize : ℕ
  events : List AuditEvent
  seq : ℕ
deriving DecidableEq

/-- Zero-padded rendering used by `f"audit-{n:08d}"`. -/
def pad8 (s : String) : String :=
  String.mk (List.replicate (8 - s.length) '0') ++ s

/-- The id `_next_id` renders for sequence value `n`. -/
def mkAuditId (n : ℕ) : String := "audit-" ++ pad8 (toString n)

/-- `AuditStore.append`: materialize the payload (assigning an id when the
given one is falsy), append it, and trim the oldest events beyond
`max_size`. -/
def auditAppend (s : AuditStoreSt) (event : AuditEvent) : AuditStoreSt :=
  let payload :=
    { event with id := if event.id = "" then mkAuditId (s.seq + 1) else event.id }
  let seq1 := if event.id = "" then s.seq + 1 else s.seq
  let events1 := s.events ++ [payload]
  let events2 :=
    if s.maxSize < events1.length then events1.drop (events1.length - s.maxSize)
    else events1
  { s with events := events2, seq := seq1 }

/-- The role-scoped visible event list (source lines 35-38): admins see all
events, other roles only the events whose `actor_email` is their own. -/
def visibleFor (s : AuditStoreSt) (actor : Actor) : List AuditEvent :=
  if actor.role = "admin" then s.events
  else s.events.filter (fun event => event.actor_email = actor.email)

/-- The visible list sorted newest-first by `ts` (Python's stable
`list.sort(key=..., reverse=True)` is a stable merge sort under the reversed
comparison). -/
def sortedVisible (s : AuditStoreSt) (actor : Actor) : List AuditEvent :=
  (visibleFor s actor).mergeSort (fun a b => decide (b.ts ≤ a.ts))

/-- The cursor scan of `list_events` (source lines 42-47): the slot after the
first event whose id equals the cursor, 0 for a falsy or unknown cursor. -/
def cursorStart (sorted : List AuditEvent) (cursor : Option String) : ℕ :=
  match cursor with
  | some c =>
    if c ≠ "" then
      match sorted.findIdx? (fun event => event.id = c) with
      | some idx => idx + 1
      | none => 0
    else 0
  | none => 0

/-- The page size clamp `max(1, min(limit, 500))`. -/
def safeLimit (limit : ℤ) : ℤ := max 1 (min limit 500)

/-- `AuditStore.list_events`: role-scoped, ts-descending, cursor = last-seen
id (a falsy or unknown cursor starts from the top), page size clamped to
[1, 500]; returns the page and the next cursor when more events remain. -/
def list_events (s : AuditStoreSt) (actor : Actor) (limit : ℤ := 200)
    (cursor : Option String := none) : List AuditEvent × Option String :=
  let sorted := sortedVisible s actor
  let start := cursorStart sorted cursor
  let page := (sorted.drop start).take (safeLimit limit).toNat
  let nextCursor :=
    if (start : ℤ) + safeLimit limit < (sorted.length : ℤ) ∧ ¬page.isEmpty
    then (page.getLast?).map (·.id) else none
  (page, nextCursor)

/-- The k-th page obtained by starting with no cursor and repeatedly passing
the returned `next_cursor` back, against a fixed store state; once a page
comes back without a next cursor the chain yields empty pages. -/
def pageChain (s : AuditStoreSt) (actor : Actor) (limit : ℤ) :
    ℕ → List AuditEvent × Option String
  | 0 => list_events s actor limit none
  | k + 1 =>
    match (pageChain s actor limit k).2 with
    | some c => list_events s actor limit (some c)
    | none => ([], none)

/-! ### Alert fingerprinting (src/backend/app/services/alerts/engine.py) -/

/-- The `_fingerprint` helper: alert type, sorted `k=v` entity labels (or the
`entity=cluster` placeholder) and the mode tag, joined with `|`. Entity
values stand for the `str()` of the original values. -/
def fingerprint (alertType : String) (entity : List (String × String))
    (mode : String) : String :=
  let ordered :=
    if entity.isEmpty then "entity=cluster"
    else String.intercalate "|"
      (((entity.map (·.1)).mergeSort (fun a b => decide (a ≤ b))).map
        fun k => k ++ "=" ++ ((alookup entity k).getD ""))
  alertType ++ "|" ++ ordered ++ "|mode=" ++ mode

/-! ### Feature extraction (src/backend/app/services/ai/feature_extractor.py)

The extractor receives arbitrary `Dict[str, Any]` payloads, so its inputs are
modelled by a dynamic value domain `PyVal`, with Python `float` values carrying
their special values (`inf`, `-inf`, `nan`) alongside exact rationals.
Binary-float overflow of finite literals (e.g. `float("1e400") == inf`) is not
modelled. Python `bool` (a subclass of `int`) is folded into `.int`. -/

/-- A Python float: a finite value (exact rational model) or a special value. -/
inductive PyFloat where
  | finite (q : ℚ)
  | inf
  | ninf
  | nan
deriving DecidableEq

/-- A dynamically typed Python value as seen by the extractor. `.obj` stands
for any other (truthy) object. -/
inductive PyVal where
  | none
  | int (n : ℤ)
  | float (f : PyFloat)
  | str (s : String)
  | dict (d : List (String × PyVal))
  | list (l : List PyVal)
  | datetime (t : ℚ)
  | obj

/-- Python truthiness of a `PyVal`. -/
def pyTruthy : PyVal → Bool
  | .none => false
  | .int n => n ≠ 0
  | .float (.finite q) => q ≠ 0
  | .float _ => true
  | .str s => s ≠ ""
  | .dict d => ¬d.isEmpty
  | .list l => ¬l.isEmpty
  | .datetime _ => true
  | .obj => true

/-- Python `value.get(key)`: dictionary lookup defaulting to `None`;
any non-dict receiver raises AttributeError. -/
def pyGet (v : PyVal) (k : String) : Except PyErr PyVal :=
  match v with
  | .dict d => .ok ((alookup d k).getD .none)
  | _ => .error .attributeError

/-- Python `str.strip()` (whitespace at both ends). -/
def stripL (l : List Char) : List Char :=
  ((l.dropWhile Char.isWhitespace).reverse.dropWhile Char.isWhitespace).reverse

/-- Drop a known suffix of length `n` (`s[:-n]`). -/
def dropSuffixL (l : List Char) (n : ℕ) : List Char := l.take (l.length - n)

/-- Decimal digits to a natural number. -/
def digitsVal (l : List Char) : ℕ :=
  l.foldl (fun acc c => acc * 10 + (c.toNat - '0'.toNat)) 0

/-- Parse a (lower-cased) exponent suffix: optional sign then digits. -/
def parseExp (l : List Char) : Option ℤ :=
  let digits : List Char → Option ℤ := fun r =>
    if r.isEmpty ∨ ¬r.all Char.isDigit then Option.none
    else some (digitsVal r)
  match l with
  | '+' :: r => digits r
  | '-' :: r => (digits r).map Neg.neg
  | r => digits r

/-- Parse an unsigned Python float literal body (digits, optional fraction,
optional exponent; numeric-literal underscores are not modelled). -/
def parseUnsigned (l : List Char) : Option ℚ :=
  let intPart := l.takeWhile Char.isDigit
  let rest := l.drop intPart.length
  match rest with
  | [] => if intPart.isEmpty then Option.none else some (digitsVal intPart : ℚ)
  | '.' :: rest2 =>
    let fracPart := rest2.takeWhile Char.isDigit
    let rest3 := rest2.drop fracPart.length
    if intPart.isEmpty ∧ fracPart.isEmpty then Option.none
    else
      let mantissa : ℚ :=
        (digitsVal intPart : ℚ) + (digitsVal fracPart : ℚ) / ((10 : ℚ) ^ fracPart.length)
      match rest3 with
      | [] => some mantissa
      | 'e' :: rest4 => (parseExp rest4).map fun ex => mantissa * (10 : ℚ) ^ ex
      | _ => Option.none
  | 'e' :: rest2 =>
    if intPart.isEmpty then Option.none
    else (parseExp rest2).map fun ex => (digitsVal intPart : ℚ) * (10 : ℚ) ^ ex
  | _ => Option.none

/-- Python `float(s)` on a string: strip, case-fold, optional sign, then a
numeric literal or one of the `inf`/`infinity`/`nan` keywords; `none` models
the ValueError. -/
def parseFloat (s : String) : Option PyFloat :=
  let l := (stripL s.toList).map Char.toLower
  let signBody : ℤ × List Char :=
    match l with
    | '+' :: r => (1, r)
    | '-' :: r => (-1, r)
    | r => (1, r)
  let sign := signBody.1
  let body := signBody.2
  if body = "inf".toList ∨ body = "infinity".toList then
    some (if sign = 1 then .inf else .ninf)
  else if body = "nan".toList then some .nan
  else (parseUnsigned body).map fun q => .finite ((sign : ℚ) * q)

/-- Multiply a Python float by a positive rational unit multiplier. -/
def pyFloatMul (f : PyFloat) (m : ℚ) : PyFloat :=
  match f with
  | .finite q => .finite (q * m)
  | .inf => if 0 < m then .inf else if m < 0 then .ninf else .nan
  | .ninf => if 0 < m then .ninf else if m < 0 then .inf else .nan
  | .nan => .nan

/-- Python `max(0.0, x)`: keeps `x` only when `x > 0.0` holds, so `nan` and
`-inf` give `0.0`. -/
def pyFloatMax0 : PyFloat → PyFloat
  | .finite q => .finite (max 0 q)
  | .inf => .inf
  | .ninf => .finite 0
  | .nan => .finite 0

/-- The `_to_float` helper: numbers pass through, strings are cleaned
(strip/lower/drop commas), unit suffixes `mbps`/`gbps`/`kbps` set the
multiplier, a trailing `%` is dropped, and the remainder is parsed
(defaulting on ValueError); anything else defaults. -/
def to_float (value : PyVal) (default : PyFloat) : PyFloat :=
  match value with
  | .none => default
  | .int n => .finite (n : ℚ)
  | .float f => f
  | .str s =>
    let cleaned := ((stripL s.toList).map Char.toLower).filter (fun c => c ≠ ',')
    let unit : List Char × ℚ :=
      if "mbps".toList.isSuffixOf cleaned then (stripL (dropSuffixL cleaned 4), 1)
      else if "gbps".toList.isSuffixOf cleaned then (stripL (dropSuffixL cleaned 4), 1000)
      else if "kbps".toList.isSuffixOf cleaned then (stripL (dropSuffixL cleaned 4), 1/1000)
      else (cleaned, 1)
    let afterPct :=
      if ['%'].isSuffixOf unit.1 then stripL (dropSuffixL unit.1 1) else unit.1
    match parseFloat (String.mk afterPct) with
    | some f => pyFloatMul f unit.2
    | Option.none => default
  | _ => default

/-- The `_to_int` helper: `int()` of floats raises OverflowError on
infinities (uncaught) and ValueError on `nan` — uncaught for float inputs,
caught (defaulting) inside the string branch's try/except ValueError. -/
def to_int (value : PyVal) (default : ℤ) : Except PyErr ℤ :=
  match value with
  | .none => .ok default
  | .int n => .ok n
  | .float (.finite q) => .ok (pyTrunc q)
  | .float .inf => .error .overflowError
  | .float .ninf => .error .overflowError
  | .float .nan => .error .valueError
  | .str s =>
    match parseFloat (String.mk (stripL s.toList)) with
    | some (.finite q) => .ok (pyTrunc q)
    | some .inf => .error .overflowError
    | some .ninf => .error .overflowError
    | some .nan => .ok default
    | Option.none => .ok default
  | _ => .ok default

/-- The extractor's output vector: raw floats (possibly `inf`) floored at 0,
a non-negative anomaly count, and a resolved timestamp. -/
structure RawFeatureVector where
  cpu_usage : PyFloat
  memory_usage : PyFloat
  storage_usage : PyFloat
  network_io : PyFloat
  anomaly_count : ℤ
  timestamp : ℚ
deriving DecidableEq

/-- `extract_features`: pull the four metric fields from the nested
`cluster_metrics` group (falling back to the top level), default the anomaly
count from `active_anomalies`, and resolve the timestamp (override →
embedded datetime/ISO string → now). `isoParse` abstracts
`datetime.fromisoformat` on strings (`none` = ValueError), `now` is the
injected `datetime.now()`. -/
def extract_features (source : Option (List (String × PyVal)))
    (anomaliesCount : Option ℤ := Option.none)
    (timestampOverride : Option ℚ := Option.none)
    (isoParse : String → Option ℚ := fun _ => Option.none) (now : ℚ := 0) :
    Except PyErr RawFeatureVector := do
  let src := source.getD []
  let clusterMetricsRaw := (alookup src "cluster_metrics").getD .none
  let cm := if pyTruthy clusterMetricsRaw then clusterMetricsRaw else .dict []
  let cpuRaw ← pyGet cm "cpu_usage"
  let cpu := to_float cpuRaw (to_float ((alookup src "cpu_usage").getD .none) (.finite 0))
  let memRaw ← pyGet cm "memory_usage"
  let mem := to_float memRaw (to_float ((alookup src "memory_usage").getD .none) (.finite 0))
  let stoRaw ← pyGet cm "storage_usage"
  let sto := to_float stoRaw (to_float ((alookup src "storage_usage").getD .none) (.finite 0))
  let netRaw ← pyGet cm "network_io"
  let net := to_float netRaw (to_float ((alookup src "network_io").getD .none) (.finite 0))
  let countDefault ← to_int ((alookup src "active_anomalies").getD .none) 0
  let anomalyCount := anomaliesCount.getD countDefault
  let sourceTimestamp := (alookup src "timestamp").getD .none
  let resolvedTimestamp :=
    match timestampOverride with
    | some t => t
    | Option.none =>
      match sourceTimestamp with
      | .datetime t => t
      | .str s => (isoParse s).getD now
      | _ => now
  return { cpu_usage := pyFloatMax0 cpu
           memory_usage := pyFloatMax0 mem
           storage_usage := pyFloatMax0 sto
           network_io := pyFloatMax0 net
           anomaly_count := max 0 anomalyCount
           timestamp := resolvedTimestamp }

/-! ### Concrete fixtures used by witnesses and counterexamples -/

/-- A minimal incoming alert (no id, no timestamps, no meta), as the alert
engine produces before the store fills the fields in. -/
def caAlert : Alert :=
  { id := "", type := "cpu_spike", severity := "critical", status := "active"
    title := "CPU Spike", message := "CPU > 85%", source := "ai"
    created_at := none, updated_at := none
    fingerprint := "cpu_spike|cluster=k8s-openstack|mode=demo"
    entity := [("cluster", "k8s-openstack")], explanation := none, meta := none }

/-- The store state after upserting `caAlert` into a fresh store at time 0. -/
def caStore1 : AlertStoreSt := (upsert_alert (AlertStoreSt.init 10) caAlert 0).2

/-- The record the store holds for `caAlert` in `caStore1`. -/
def caStored1 : Alert :=
  { caAlert with id := "alert-000001", created_at := some 0, updated_at := some 0
                 meta := some { occurrences := some 1 } }

/-- A feature vector with only the CPU and network fields of interest. -/
def mkFv (cpu mem sto net : ℚ) (ts : ℚ) : FeatureVector :=
  { cpu_usage := cpu, memory_usage := mem, storage_usage := sto
    network_io := net, anomaly_count := 0, timestamp := ts }

/-- Current point of the spec's detector example: cpu 88, memory 91,
network 100. -/
def c2Cur : FeatureVector := mkFv 88 91 10 100 10

/-- One-point history for the detector example: prior cpu 60, network 55. -/
def c2Hist : List FeatureVector := [mkFv 60 50 10 55 5]

/-- Features of the spec's risk example (cpu 92, memory 90, storage 75). -/
def c3Features : FeatureVector := mkFv 92 90 75 10 0

/-- One critical anomaly. -/
def c3Anoms : List AgentAnomaly :=
  [{ type := "cpu_spike", severity := "critical", confidence := 9/10
     explanation := "CPU exceeded 85% threshold" }]

/-- High-risk forecast input peaking 20 minutes after the feature
timestamp. -/
def c3Forecast : RiskForecastIn :=
  { predicted_peak := 96, risk_level := "high", peak_time := some 20 }

/-- One critical-priority recommendation. -/
def c3Recos : List Recommendation :=
  [{ type := "scale_deployment", priority := "critical", target := "deployment/api"
     reason := "r", confidence := 9/10, impact := "i" }]

/-- CPU history 0, 0, 1 — its least-squares fit has slope 1/2 and intercept
-1/6, so the first forecast value 11/6 is not representable in two decimal
places. -/
def c4Hist : List FeatureVector := [mkFv 0 0 0 0 0, mkFv 0 0 0 0 5, mkFv 1 0 0 0 10]

/-- A quiet feature vector (storage well under 85). -/
def c5Features : FeatureVector := mkFv 10 10 10 10 0

/-- A low-risk forecast. -/
def c5Forecast : ForecastResult :=
  { predicted_peak := 0, peak_time := 0, trend := "stable", risk_level := "low"
    confidence := 6/10, forecast_series := [] }

/-- An audit event literal. -/
def mkEv (id ts email role action : String) : AuditEvent :=
  { id := id, ts := ts, actor_email := email, actor_role := role
    action := action, target_id := none, metadata := [] }

/-- Audit events with a DUPLICATED caller-supplied id "x" (ts descending). -/
def cAuditE1 : AuditEvent := mkEv "x" "3" "ops@example.com" "operator" "a"

/-- Second event sharing id "x". -/
def cAuditE2 : AuditEvent := mkEv "x" "2" "ops@example.com" "operator" "b"

/-- Third event with id "y". -/
def cAuditE3 : AuditEvent := mkEv "y" "1" "ops@example.com" "operator" "c"

/-- A store holding the duplicate-id events. -/
def cAuditStore : AuditStoreSt := { maxSize := 2000, events := [cAuditE1, cAuditE2, cAuditE3], seq := 3 }

/-- The admin actor. -/
def cAdmin : Actor := { email := "admin@example.com", role := "admin" }

/-- Well-formed audit events with store-assigned distinct ids. -/
def wAuditE1 : AuditEvent := mkEv "audit-00000001" "3" "ops@example.com" "operator" "a"

/-- Second well-formed event. -/
def wAuditE2 : AuditEvent := mkEv "audit-00000002" "2" "ops@example.com" "operator" "b"

/-- Third well-formed event. -/
def wAuditE3 : AuditEvent := mkEv "audit-00000003" "1" "ops@example.com" "operator" "c"

/-- A store holding the well-formed events. -/
def wAuditStore : AuditStoreSt := { maxSize := 2000, events := [wAuditE1, wAuditE2, wAuditE3], seq := 3 }

/-- The operator actor owning the well-formed events. -/
def wOperator : Actor := { email := "ops@example.com", role := "operator" }

/-! ## Association-list lemmas -/

theorem alookup_cons {α : Type} (p : String × α) (t : List (String × α)) (k : String) :
    alookup (p :: t) k = if p.1 = k then some p.2 else alookup t k := by
  by_cases h : p.1 = k <;> simp [alookup, List.find?_cons, h]

theorem alookup_aset_self {α : Type} (k : String) (v : α) (l : List (String × α)) :
    alookup (aset k v l) k = some v := by
  induction l with
  | nil => simp [aset, alookup_cons]
  | cons p t ih =>
    by_cases h : p.1 = k
    · simp [aset, h, alookup_cons]
    · simp [aset, h, alookup_cons, ih]

theorem alookup_aset_ne {α : Type} (k k' : String) (v : α) (l : List (String × α))
    (h : k' ≠ k) : alookup (aset k v l) k' = alookup l k' := by
  induction l with
  | nil =>
    simp only [aset, alookup_cons]
    rw [if_neg (show ¬((k, v).1 = k') from fun he => h he.symm)]
  | cons p t ih =>
    by_cases hp : p.1 = k
    · simp only [aset, if_pos hp, alookup_cons]
      rw [if_neg (show ¬((k, v).1 = k') from fun he => h he.symm),
        if_neg (show ¬(p.1 = k') from fun he => h (hp.symm.trans he).symm)]
    · simp only [aset, if_neg hp, alookup_cons, ih]

theorem keys_aset_of_mem {α : Type} (k : String) (v : α) (l : List (String × α))
    (h : (alookup l k).isSome) :
    (aset k v l).map Prod.fst = l.map Prod.fst := by
  induction l with
  | nil => simp [alookup] at h
  | cons p t ih =>
    by_cases hp : p.1 = k
    · simp [aset, hp]
    · rw [alookup_cons, if_neg hp] at h
      simp [aset, hp, ih h]

theorem mem_aset {α : Type} (k : String) (v : α) (l : List (String × α))
    (p : String × α) (h : p ∈ aset k v l) : p = (k, v) ∨ p ∈ l := by
  induction l with
  | nil => simpa [aset] using h
  | cons q t ih =>
    by_cases hq : q.1 = k
    · rcases (by simpa [aset, hq] using h) with h1 | h1
      · exact Or.inl h1
      · exact Or.inr (List.mem_cons_of_mem _ h1)
    · rcases (by simpa [aset, hq] using h) with h1 | h1
      · exact Or.inr (by simp [h1])
      · rcases ih h1 with h2 | h2
        · exact Or.inl h2
        · exact Or.inr (List.mem_cons_of_mem _ h2)

theorem keys_aset_sublist_aux {α : Type} (k : String) (v : α) (l : List (String × α)) :
    (aset k v l).map Prod.fst = l.map Prod.fst ∨
      (aset k v l).map Prod.fst = l.map Prod.fst ++ [k] := by
  induction l with
  | nil => simp [aset]
  | cons p t ih =>
    by_cases hp : p.1 = k
    · left; simp [aset, hp]
    · rcases ih with h | h
      · left; simp [aset, hp, h]
      · right; simp [aset, hp, h]

theorem nodup_keys_aset {α : Type} (k : String) (v : α) (l : List (String × α))
    (h : (l.map Prod.fst).Nodup) : ((aset k v l).map Prod.fst).Nodup := by
  induction l with
  | nil => simp [aset]
  | cons p t ih =>
    rw [List.map_cons, List.nodup_cons] at h
    by_cases hp : p.1 = k
    · subst hp
      simpa [aset] using h
    · simp only [aset, if_neg hp, List.map_cons, List.nodup_cons]
      refine ⟨?_, ih h.2⟩
      intro hmem
      rcases keys_aset_sublist_aux k v t with heq | heq
      · exact h.1 (heq ▸ hmem)
      · rw [heq, List.mem_append] at hmem
        rcases hmem with hm | hm
        · exact h.1 hm
        · exact hp (by simpa using hm)

theorem alookup_none_of_not_mem_keys {α : Type} (l : List (String × α)) (k : String)
    (h : k ∉ l.map Prod.fst) : alookup l k = none := by
  induction l with
  | nil => simp [alookup]
  | cons p t ih =>
    simp only [List.map_cons, List.mem_cons] at h
    push_neg at h
    rw [alookup_cons, if_neg (fun he => h.1 he.symm)]
    exact ih h.2

theorem mem_of_alookup_eq_some {α : Type} (l : List (String × α)) (k : String) (v : α)
    (h : alookup l k = some v) : (k, v) ∈ l := by
  induction l with
  | nil => simp [alookup] at h
  | cons p t ih =>
    rw [alookup_cons] at h
    by_cases hp : p.1 = k
    · rw [if_pos hp] at h
      obtain ⟨p1, p2⟩ := p
      obtain rfl : p1 = k := hp
      obtain rfl : p2 = v := by simpa using h
      exact List.mem_cons_self _ _
    · rw [if_neg hp] at h
      exact List.mem_cons_of_mem _ (ih h)

theorem alookup_eq_some_of_mem_nodup {α : Type} (l : List (String × α)) (k : String)
    (v : α) (hnd : (l.map Prod.fst).Nodup) (hmem : (k, v) ∈ l) :
    alookup l k = some v := by
  induction l with
  | nil => simp at hmem
  | cons p t ih =>
    rw [List.map_cons, List.nodup_cons] at hnd
    rw [List.mem_cons] at hmem
    rcases hmem with hmem | hmem
    · rw [← hmem, alookup_cons, if_pos rfl]
    · rw [alookup_cons]
      by_cases hp : p.1 = k
      · exact absurd (hp ▸ List.mem_map_of_mem Prod.fst hmem) hnd.1
      · rw [if_neg hp]
        exact ih hnd.2 hmem

/-! ## C1 — dedupe behavior of `upsert_alert` -/

/-- C1 (amended): when a stored record is already indexed under the incoming
alert's fingerprint, `upsert_alert` merges into it exactly when the elapsed
time since the record's last update is within the dedupe window — increments
`occurrences`, refreshes message and `updated_at`, keeps the id, creates no
new record and leaves the index untouched; beyond the window it instead
creates a record (fresh sequential id when the incoming id is falsy, seeded
`occurrences`) and repoints the fingerprint index at it. -/
theorem upsert_alert_merge_iff_within_window (s : AlertStoreSt) (a : Alert)
    (now : ℤ) (eid : String) (ex : Alert) (lu : ℤ)
    (hfp : alookup s.fpIndex a.fingerprint = some eid)
    (hne : eid ≠ "")
    (hal : alookup s.alerts eid = some ex)
    (hid : ex.id = eid)
    (hlu : ex.updated_at = some lu) :
    (now - lu ≤ s.window →
      (upsert_alert s a now).1 = .ok (mergedAlert ex a.message now) ∧
        (mergedAlert ex a.message now).id = ex.id ∧
        (mergedAlert ex a.message now).meta = some { ex.meta.getD {} with
          occurrences := some ((ex.meta.getD {}).occurrences.getD 1 + 1)
          last_message := some a.message } ∧
        (mergedAlert ex a.message now).message = a.message ∧
        (mergedAlert ex a.message now).updated_at = some now ∧
        (upsert_alert s a now).2.alerts.map Prod.fst = s.alerts.map Prod.fst ∧
        (upsert_alert s a now).2.fpIndex = s.fpIndex ∧
        alookup (upsert_alert s a now).2.alerts eid =
          some (mergedAlert ex a.message now)) ∧
    (s.window < now - lu →
      ∃ newId, newId = (if a.id = "" then mkAlertId (s.seq + 1) else a.id) ∧
        (upsert_alert s a now).1 = .ok (createdAlert a now newId) ∧
        (createdAlert a now newId).id = newId ∧
        (createdAlert a now newId).meta = some { a.meta.getD {} with
          occurrences := some ((a.meta.getD {}).occurrences.getD 1) } ∧
        alookup (upsert_alert s a now).2.fpIndex a.fingerprint = some newId ∧
        alookup (upsert_alert s a now).2.alerts newId =
          some (createdAlert a now newId)) := by
  constructor
  · intro hwin
    have hkey : upsert_alert s a now =
        (.ok (mergedAlert ex a.message now),
         { s with alerts := aset ex.id (mergedAlert ex a.message now) s.alerts }) := by
      simp only [upsert_alert, hfp]
      rw [if_neg hne]
      simp only [hal, hlu]
      rw [if_pos hwin]
    refine ⟨?_, rfl, rfl, rfl, rfl, ?_, ?_, ?_⟩
    · rw [hkey]
    · rw [hkey]
      exact keys_aset_of_mem ex.id _ s.alerts (by rw [hid, hal]; rfl)
    · rw [hkey]
    · rw [hkey, hid]
      exact alookup_aset_self _ _ _
  · intro hwin
    have hnot : ¬(now - lu ≤ s.window) := not_le.mpr hwin
    have hkey : upsert_alert s a now = upsertCreate s a now := by
      simp only [upsert_alert, hfp]
      rw [if_neg hne]
      simp only [hal, hlu]
      rw [if_neg hnot]
    refine ⟨if a.id = "" then mkAlertId (s.seq + 1) else a.id, rfl, ?_, rfl, rfl, ?_, ?_⟩
    · rw [hkey]
      rfl
    · rw [hkey]
      exact alookup_aset_self _ _ _
    · rw [hkey]
      exact alookup_aset_self _ _ _

/-- C1 witness: in a fresh store with `caAlert` upserted at time 0, a repeat
upsert at time 5 (inside the 10-minute window) merges into the stored
record. -/
theorem upsert_alert_merge_window_witness :
    ((5 : ℤ) - 0 ≤ caStore1.window) ∧
    ((upsert_alert caStore1 caAlert 5).1 = .ok (mergedAlert caStored1 caAlert.message 5) ∧
      (mergedAlert caStored1 caAlert.message 5).id = caStored1.id ∧
      (mergedAlert caStored1 caAlert.message 5).meta = some { caStored1.meta.getD {} with
        occurrences := some ((caStored1.meta.getD {}).occurrences.getD 1 + 1)
        last_message := some caAlert.message } ∧
      (mergedAlert caStored1 caAlert.message 5).message = caAlert.message ∧
      (mergedAlert caStored1 caAlert.message 5).updated_at = some 5 ∧
      (upsert_alert caStore1 caAlert 5).2.alerts.map Prod.fst =
        caStore1.alerts.map Prod.fst ∧
      (upsert_alert caStore1 caAlert 5).2.fpIndex = caStore1.fpIndex ∧
      alookup (upsert_alert caStore1 caAlert 5).2.alerts "alert-000001" =
        some (mergedAlert caStored1 caAlert.message 5)) :=
  ⟨by decide,
   (upsert_alert_merge_iff_within_window caStore1 caAlert 5 "alert-000001" caStored1 0
      (by decide) (by decide) (by decide) (by decide) (by decide)).1 (by decide)⟩

/-- C1 counterexample: re-upserting the same fingerprint 11 minutes after the
last update (beyond the 10-minute window) does not merge — a second record
with a fresh id is created, so the id is not preserved and a new record does
appear for a repeated fingerprint. -/
theorem upsert_alert_beyond_window_counterexample :
    ((upsert_alert (AlertStoreSt.init 10) caAlert 0).1.toOption.map (·.id) =
      some "alert-000001") ∧
    ((upsert_alert caStore1 caAlert 11).1.toOption.map (·.id) =
      some "alert-000002") ∧
    (upsert_alert caStore1 caAlert 11).2.alerts.length = 2 ∧
    (upsert_alert caStore1 caAlert 11).1.toOption.map (fun m =>
      (m.meta.getD {}).occurrences.getD 0) = some 1 := by
  decide

/-! ## C7 — acknowledge / resolve -/

/-- C7: on an unknown id both `acknowledge` and `resolve` fail with the
KeyError ("NotFound") and return the store unchanged; on a known id they set
the status to "acknowledged"/"resolved", refresh `updated_at`, record the
actor under `ack_by`/`resolved_by` in meta, and leave every other alert
untouched (the fingerprint index too). -/
theorem acknowledge_resolve_spec (s : AlertStoreSt) (alertId actor : String) (now : ℤ) :
    (alookup s.alerts alertId = Option.none →
      (acknowledge s alertId actor now).1 =
        .error (.keyError ("Alert not found: " ++ alertId)) ∧
      (acknowledge s alertId actor now).2 = s ∧
      (resolve s alertId actor now).1 =
        .error (.keyError ("Alert not found: " ++ alertId)) ∧
      (resolve s alertId actor now).2 = s) ∧
    (∀ a, alookup s.alerts alertId = some a →
      ((acknowledge s alertId actor now).1 = .ok (ackedAlert a actor now) ∧
        (ackedAlert a actor now).status = "acknowledged" ∧
        (ackedAlert a actor now).updated_at = some now ∧
        ((ackedAlert a actor now).meta.getD {}).ack_by = some actor ∧
        alookup (acknowledge s alertId actor now).2.alerts alertId =
          some (ackedAlert a actor now) ∧
        (∀ k, k ≠ alertId →
          alookup (acknowledge s alertId actor now).2.alerts k = alookup s.alerts k) ∧
        (acknowledge s alertId actor now).2.fpIndex = s.fpIndex) ∧
      ((resolve s alertId actor now).1 = .ok (resolvedAlert a actor now) ∧
        (resolvedAlert a actor now).status = "resolved" ∧
        (resolvedAlert a actor now).updated_at = some now ∧
        ((resolvedAlert a actor now).meta.getD {}).resolved_by = some actor ∧
        alookup (resolve s alertId actor now).2.alerts alertId =
          some (resolvedAlert a actor now) ∧
        (∀ k, k ≠ alertId →
          alookup (resolve s alertId actor now).2.alerts k = alookup s.alerts k) ∧
        (resolve s alertId actor now).2.fpIndex = s.fpIndex)) := by
  constructor
  · intro h
    refine ⟨?_, ?_, ?_, ?_⟩ <;> simp only [acknowledge, resolve, h]
  · intro a h
    have hack : acknowledge s alertId actor now =
        (.ok (ackedAlert a actor now),
         { s with alerts := aset alertId (ackedAlert a actor now) s.alerts }) := by
      simp only [acknowledge, h]
    have hres : resolve s alertId actor now =
        (.ok (resolvedAlert a actor now),
         { s with alerts := aset alertId (resolvedAlert a actor now) s.alerts }) := by
      simp only [resolve, h]
    refine ⟨⟨?_, rfl, rfl, rfl, ?_, ?_, ?_⟩, ⟨?_, rfl, rfl, rfl, ?_, ?_, ?_⟩⟩
    · rw [hack]
    · rw [hack]
      exact alookup_aset_self _ _ _
    · intro k hk
      rw [hack]
      exact alookup_aset_ne _ _ _ _ hk
    · rw [hack]
    · rw [hres]
    · rw [hres]
      exact alookup_aset_self _ _ _
    · intro k hk
      rw [hres]
      exact alookup_aset_ne _ _ _ _ hk
    · rw [hres]

/-- C7 witness: against `caStore1`, the unknown id "missing" fails with
KeyError leaving the store unchanged, and the known id "alert-000001" is
acknowledged with the actor recorded. -/
theorem acknowledge_resolve_witness :
    (alookup caStore1.alerts "missing" = Option.none ∧
      (acknowledge caStore1 "missing" "ops@example.com" 1).1 =
        .error (.keyError "Alert not found: missing") ∧
      (acknowledge caStore1 "missing" "ops@example.com" 1).2 = caStore1) ∧
    (alookup caStore1.alerts "alert-000001" = some caStored1 ∧
      (acknowledge caStore1 "alert-000001" "ops@example.com" 1).1 =
        .ok (ackedAlert caStored1 "ops@example.com" 1) ∧
      (resolve caStore1 "alert-000001" "ops@example.com" 1).1 =
        .ok (resolvedAlert caStored1 "ops@example.com" 1)) :=
  ⟨⟨by decide,
    ((acknowledge_resolve_spec caStore1 "missing" "ops@example.com" 1).1 (by decide)).1,
    ((acknowledge_resolve_spec caStore1 "missing" "ops@example.com" 1).1 (by decide)).2.1⟩,
   ⟨by decide,
    (((acknowledge_resolve_spec caStore1 "alert-000001" "ops@example.com" 1).2
        caStored1 (by decide)).1).1,
    (((acknowledge_resolve_spec caStore1 "alert-000001" "ops@example.com" 1).2
        caStored1 (by decide)).2).1⟩⟩

/-! ## C10 — structural invariants of the alert store -/

theorem storeInv_init (w : ℤ) : StoreInv (AlertStoreSt.init w) := by
  refine ⟨?_, ?_, ?_⟩ <;> simp [AlertStoreSt.init, alookup]

theorem storeInv_write_indexed (s : AlertStoreSt) (fp newId : String) (model : Alert)
    (hm : model.id = newId) (h : StoreInv s) (w : ℤ) (q : ℕ) :
    StoreInv { alerts := aset newId model s.alerts
               fpIndex := aset fp newId s.fpIndex, window := w, seq := q } := by
  obtain ⟨h1, h2, h3⟩ := h
  refine ⟨?_, nodup_keys_aset _ _ _ h2, ?_⟩
  · intro fp' id' hlook
    by_cases hfp : fp' = fp
    · subst hfp
      rw [alookup_aset_self] at hlook
      obtain rfl : newId = id' := by simpa using hlook
      simp [alookup_aset_self]
    · rw [alookup_aset_ne _ _ _ _ hfp] at hlook
      by_cases hid : id' = newId
      · subst hid
        simp [alookup_aset_self]
      · rw [alookup_aset_ne _ _ _ _ hid]
        exact h1 fp' id' hlook
  · intro p hp
    rcases mem_aset _ _ _ _ hp with rfl | hp
    · exact hm
    · exact h3 p hp

theorem storeInv_write_existing (s : AlertStoreSt) (key : String) (upd : Alert)
    (hm : upd.id = key) (h : StoreInv s) :
    StoreInv { s with alerts := aset key upd s.alerts } := by
  obtain ⟨h1, h2, h3⟩ := h
  refine ⟨?_, nodup_keys_aset _ _ _ h2, ?_⟩
  · intro fp' id' hlook
    by_cases hid : id' = key
    · subst hid
      simp [alookup_aset_self]
    · rw [alookup_aset_ne _ _ _ _ hid]
      exact h1 fp' id' hlook
  · intro p hp
    rcases mem_aset _ _ _ _ hp with rfl | hp
    · exact hm
    · exact h3 p hp

theorem storeInv_upsertCreate (s : AlertStoreSt) (a : Alert) (now : ℤ)
    (h : StoreInv s) : StoreInv (upsertCreate s a now).2 := by
  by_cases hid : a.id = ""
  · simpa [upsertCreate, hid, new_id] using
      storeInv_write_indexed s a.fingerprint (mkAlertId (s.seq + 1))
        (createdAlert a now (mkAlertId (s.seq + 1))) rfl h s.window (s.seq + 1)
  · simpa [upsertCreate, hid] using
      storeInv_write_indexed s a.fingerprint a.id (createdAlert a now a.id) rfl h
        s.window s.seq

theorem storeInv_upsert (s : AlertStoreSt) (a : Alert) (now : ℤ)
    (h : StoreInv s) : StoreInv (upsert_alert s a now).2 := by
  rcases hfp : alookup s.fpIndex a.fingerprint with _ | eid
  · simpa [upsert_alert, hfp] using storeInv_upsertCreate s a now h
  · by_cases he : eid = ""
    · simpa [upsert_alert, hfp, he] using storeInv_upsertCreate s a now h
    · rcases hal : alookup s.alerts eid with _ | ex
      · have hkey : (upsert_alert s a now).2 = (upsertCreate s a now).2 := by
          simp only [upsert_alert, hfp]
          rw [if_neg he]
          simp only [hal]
        rw [hkey]
        exact storeInv_upsertCreate s a now h
      · rcases hlu : ex.updated_at with _ | lu
        · have hkey : (upsert_alert s a now).2 = s := by
            simp only [upsert_alert, hfp]
            rw [if_neg he]
            simp only [hal, hlu]
          rw [hkey]
          exact h
        · by_cases hw : now - lu ≤ s.window
          · have hkey : (upsert_alert s a now).2 =
                { s with alerts := aset ex.id (mergedAlert ex a.message now) s.alerts } := by
              simp only [upsert_alert, hfp]
              rw [if_neg he]
              simp only [hal, hlu]
              rw [if_pos hw]
            rw [hkey]
            exact storeInv_write_existing s ex.id (mergedAlert ex a.message now) rfl h
          · have hkey : (upsert_alert s a now).2 = (upsertCreate s a now).2 := by
              simp only [upsert_alert, hfp]
              rw [if_neg he]
              simp only [hal, hlu]
              rw [if_neg hw]
            rw [hkey]
            exact storeInv_upsertCreate s a now h

theorem storeInv_runOp (s : AlertStoreSt) (op : StoreOp) (h : StoreInv s) :
    StoreInv (runOp s op) := by
  cases op with
  | upsert a t => exact storeInv_upsert s a t h
  | ack i ac t =>
    rcases hal : alookup s.alerts i with _ | al
    · simpa [runOp, acknowledge, hal] using h
    · have hid : al.id = i := h.2.2 (i, al) (mem_of_alookup_eq_some _ _ _ hal)
      have hkey : (runOp s (.ack i ac t)) =
          { s with alerts := aset i (ackedAlert al ac t) s.alerts } := by
        simp only [runOp, acknowledge, hal]
      rw [hkey]
      exact storeInv_write_existing s i (ackedAlert al ac t) hid h
  | res i ac t =>
    rcases hal : alookup s.alerts i with _ | al
    · simpa [runOp, resolve, hal] using h
    · have hid : al.id = i := h.2.2 (i, al) (mem_of_alookup_eq_some _ _ _ hal)
      have hkey : (runOp s (.res i ac t)) =
          { s with alerts := aset i (resolvedAlert al ac t) s.alerts } := by
        simp only [runOp, resolve, hal]
      rw [hkey]
      exact storeInv_write_existing s i (resolvedAlert al ac t) hid h
  | clear =>
    refine ⟨?_, ?_, ?_⟩ <;> simp [runOp, clear_all, alookup]

theorem storeInv_runOps (ops : List StoreOp) (s : AlertStoreSt) (h : StoreInv s) :
    StoreInv (runOps ops s) := by
  induction ops generalizing s with
  | nil => exact h
  | cons op rest ih => exact ih (runOp s op) (storeInv_runOp s op h)

theorem runOp_seq_mono (s : AlertStoreSt) (op : StoreOp) : s.seq ≤ (runOp s op).seq := by
  have hcreate : ∀ (a : Alert) (t : ℤ), s.seq ≤ (upsertCreate s a t).2.seq := by
    intro a t
    by_cases hid : a.id = ""
    · simp [upsertCreate, hid, new_id]
    · simp [upsertCreate, hid]
  cases op with
  | upsert a t =>
    rcases hfp : alookup s.fpIndex a.fingerprint with _ | eid
    · simpa [runOp, upsert_alert, hfp] using hcreate a t
    · by_cases he : eid = ""
      · simpa [runOp, upsert_alert, hfp, he] using hcreate a t
      · rcases hal : alookup s.alerts eid with _ | ex
        · have hkey : (runOp s (.upsert a t)) = (upsertCreate s a t).2 := by
            simp only [runOp, upsert_alert, hfp]
            rw [if_neg he]
            simp only [hal]
          rw [hkey]
          exact hcreate a t
        · rcases hlu : ex.updated_at with _ | lu
          · have hkey : (runOp s (.upsert a t)) = s := by
              simp only [runOp, upsert_alert, hfp]
              rw [if_neg he]
              simp only [hal, hlu]
            simp [hkey]
          · by_cases hw : t - lu ≤ s.window
            · have hkey : (runOp s (.upsert a t)).seq = s.seq := by
                simp only [runOp, upsert_alert, hfp]
                rw [if_neg he]
                simp only [hal, hlu]
                rw [if_pos hw]
              simp [hkey]
            · have hkey : (runOp s (.upsert a t)) = (upsertCreate s a t).2 := by
                simp only [runOp, upsert_alert, hfp]
                rw [if_neg he]
                simp only [hal, hlu]
                rw [if_neg hw]
              rw [hkey]
              exact hcreate a t
  | ack i ac t =>
    rcases hal : alookup s.alerts i with _ | al <;> simp [runOp, acknowledge, hal]
  | res i ac t =>
    rcases hal : alookup s.alerts i with _ | al <;> simp [runOp, resolve, hal]
  | clear => exact le_refl _

/-- C10: from the empty initial store, every operation sequence preserves the
structural invariant (index ids point at stored alerts; stored records are
keyed by their own distinct ids); `_new_id` strictly increments the sequence
and renders the id of its new value, and no operation ever decreases the
sequence; and the converse of the index invariant fails — a reachable state
has a stored alert the fingerprint index no longer points at. -/
theorem alert_store_invariants (ops : List StoreOp) :
    StoreInv (runOps ops (AlertStoreSt.init 10)) ∧
    (∀ s : AlertStoreSt, ∀ op : StoreOp, s.seq ≤ (runOp s op).seq) ∧
    (∀ s : AlertStoreSt, (new_id s).2.seq = s.seq + 1 ∧ (new_id s).1 = mkAlertId (s.seq + 1)) ∧
    (∃ ops2 : List StoreOp, ∃ id : String,
      (alookup (runOps ops2 (AlertStoreSt.init 10)).alerts id).isSome ∧
      ∀ fp, alookup (runOps ops2 (AlertStoreSt.init 10)).fpIndex fp ≠ some id) := by
  refine ⟨storeInv_runOps ops _ (storeInv_init 10), runOp_seq_mono, fun s => ⟨rfl, rfl⟩,
    [.upsert caAlert 0, .upsert caAlert 11], "alert-000001", by decide, ?_⟩
  intro fp hcontra
  have hm := mem_of_alookup_eq_some _ _ _ hcontra
  rw [show (runOps [.upsert caAlert 0, .upsert caAlert 11] (AlertStoreSt.init 10)).fpIndex =
      [("cpu_spike|cluster=k8s-openstack|mode=demo", "alert-000002")] from by decide,
    List.mem_singleton] at hm
  have hsnd : "alert-000001" = "alert-000002" := congrArg Prod.snd hm
  exact absurd hsnd (by decide)

/-- C10 witness: after one upsert from the empty store, the fingerprint index
entry produced by the run points at a stored alert, as the invariant
requires. -/
theorem alert_store_invariants_witness :
    alookup (runOps [.upsert caAlert 0] (AlertStoreSt.init 10)).fpIndex
        caAlert.fingerprint = some "alert-000001" ∧
    (alookup (runOps [.upsert caAlert 0] (AlertStoreSt.init 10)).alerts
        "alert-000001").isSome :=
  ⟨by decide,
   (alert_store_invariants [.upsert caAlert 0]).1.1 caAlert.fingerprint "alert-000001"
     (by decide)⟩

/-! ## Rounding and clamping lemmas -/

theorem roundHalfEven_mono {a b : ℚ} (h : a ≤ b) :
    roundHalfEven a ≤ roundHalfEven b := by
  unfold roundHalfEven
  dsimp only
  rcases lt_or_le ⌊a⌋ ⌊b⌋ with hf | hf
  · have ha : (if a - (⌊a⌋ : ℚ) < 1/2 then ⌊a⌋
        else if 1/2 < a - (⌊a⌋ : ℚ) then ⌊a⌋ + 1
        else if ⌊a⌋ % 2 = 0 then ⌊a⌋ else ⌊a⌋ + 1) ≤ ⌊a⌋ + 1 := by
      split_ifs <;> omega
    have hb : ⌊b⌋ ≤ (if b - (⌊b⌋ : ℚ) < 1/2 then ⌊b⌋
        else if 1/2 < b - (⌊b⌋ : ℚ) then ⌊b⌋ + 1
        else if ⌊b⌋ % 2 = 0 then ⌊b⌋ else ⌊b⌋ + 1) := by
      split_ifs <;> omega
    calc (if a - (⌊a⌋ : ℚ) < 1/2 then ⌊a⌋
        else if 1/2 < a - (⌊a⌋ : ℚ) then ⌊a⌋ + 1
        else if ⌊a⌋ % 2 = 0 then ⌊a⌋ else ⌊a⌋ + 1) ≤ ⌊a⌋ + 1 := ha
      _ ≤ ⌊b⌋ := hf
      _ ≤ _ := hb
  · have hfe : ⌊a⌋ = ⌊b⌋ := le_antisymm (Int.floor_le_floor h) hf
    rw [← hfe]
    have hfr : a - (⌊a⌋ : ℚ) ≤ b - (⌊a⌋ : ℚ) := by linarith
    split_ifs <;> first | omega | (exfalso; linarith)

theorem round2_mono {a b : ℚ} (h : a ≤ b) : round2 a ≤ round2 b := by
  unfold round2
  have := roundHalfEven_mono (show a * 100 ≤ b * 100 by linarith)
  have hc : ((roundHalfEven (a * 100) : ℤ) : ℚ) ≤ ((roundHalfEven (b * 100) : ℤ) : ℚ) := by
    exact_mod_cast this
  linarith

theorem round2_intCast (n : ℤ) : round2 ((n : ℚ)) = (n : ℚ) := by
  have h1 : ((n : ℚ)) * 100 = ((n * 100 : ℤ) : ℚ) := by push_cast; ring
  have h2 : roundHalfEven ((n * 100 : ℤ) : ℚ) = n * 100 := by
    unfold roundHalfEven
    rw [Int.floor_intCast]
    simp
  rw [round2, h1, h2]
  push_cast
  ring_nf

theorem clamp_le_hi (v lo hi : ℚ) (h : lo ≤ hi) : clamp v lo hi ≤ hi :=
  max_le h (min_le_left _ _)

theorem lo_le_clamp (v lo hi : ℚ) : lo ≤ clamp v lo hi := le_max_left _ _

theorem clamp_mono (lo hi : ℚ) {a b : ℚ} (h : a ≤ b) :
    clamp a lo hi ≤ clamp b lo hi :=
  max_le_max (le_refl _) (min_le_min (le_refl _) h)

theorem clamp_eq_self (v lo hi : ℚ) (h1 : lo ≤ v) (h2 : v ≤ hi) :
    clamp v lo hi = v := by
  rw [clamp, min_eq_right h2, max_eq_right h1]

/-! ## C2 — anomaly detection rules -/

/-- C2: the detector's output lists exactly the triggered rules, in the fixed
order cpu_spike, memory_pressure, network_spike, with no duplicated type;
each rule triggers iff its spec condition holds (cpu > 85 ∨ delta > 20 with
delta against the last history element and 0 on empty history; memory > 90;
history-mean network baseline > 0 and net > baseline × 1.5); and the cpu and
memory severities are critical iff cpu ≥ 95 ∨ delta ≥ 30, resp. memory ≥ 95,
else high. -/
theorem detect_anomalies_rules (cur : FeatureVector) (hist : List FeatureVector) :
    (detect_anomalies cur hist).map (·.type) =
      (if 85 < cur.cpu_usage ∨ 20 < cpuDelta cur hist then ["cpu_spike"] else []) ++
      (if 90 < cur.memory_usage then ["memory_pressure"] else []) ++
      (if 0 < networkBaseline cur hist ∧
          networkBaseline cur hist * (3/2) < cur.network_io
        then ["network_spike"] else []) ∧
    ((detect_anomalies cur hist).map (·.type)).Nodup ∧
    (∀ a ∈ detect_anomalies cur hist, a.type = "cpu_spike" →
      a.severity = if 95 ≤ cur.cpu_usage ∨ 30 ≤ cpuDelta cur hist
        then "critical" else "high") ∧
    (∀ a ∈ detect_anomalies cur hist, a.type = "memory_pressure" →
      a.severity = if 95 ≤ cur.memory_usage then "critical" else "high") ∧
    ((85 < cur.cpu_usage ∨ 20 < cpuDelta cur hist) ↔
      "cpu_spike" ∈ (detect_anomalies cur hist).map (·.type)) ∧
    ((90 < cur.memory_usage) ↔
      "memory_pressure" ∈ (detect_anomalies cur hist).map (·.type)) ∧
    ((0 < networkBaseline cur hist ∧
        networkBaseline cur hist * (3/2) < cur.network_io) ↔
      "network_spike" ∈ (detect_anomalies cur hist).map (·.type)) := by
  by_cases h1 : 85 < cur.cpu_usage ∨ 20 < cpuDelta cur hist <;>
    by_cases h2 : 90 < cur.memory_usage <;>
      by_cases h3 : 0 < networkBaseline cur hist ∧
          networkBaseline cur hist * (3/2) < cur.network_io <;>
        refine ⟨?_, ?_, ?_, ?_, ?_, ?_, ?_⟩ <;>
          simp [detect_anomalies, h1, h2, h3]

/-- C2 witness: with current cpu 88 / memory 91 / network 100 against a
history point with cpu 60 / network 55 all three rules trigger, in order. -/
theorem detect_anomalies_witness :
    (detect_anomalies c2Cur c2Hist).map (·.type) =
      ["cpu_spike", "memory_pressure", "network_spike"] := by
  have h := (detect_anomalies_rules c2Cur c2Hist).1
  rw [h]
  norm_num [c2Cur, c2Hist, mkFv, cpuDelta, networkBaseline]

/-! ## C3 — SLA risk result bounds -/

theorem parse_tti_nonneg (pt : Option ℚ) (ct : ℚ) :
    0 ≤ parse_time_to_impact_minutes pt ct := by
  cases pt with
  | none => norm_num [parse_time_to_impact_minutes]
  | some p => exact le_max_left _ _

theorem ite_nonneg {c : Prop} [Decidable c] {a b : ℤ} (ha : 0 ≤ a) (hb : 0 ≤ b) :
    0 ≤ if c then a else b := by
  split_ifs <;> assumption

theorem ite_default_ne_nil {α : Type} (l : List α) (d : α) :
    (if l.isEmpty then [d] else l) ≠ [] := by
  by_cases h : l.isEmpty
  · simp [h]
  · rw [if_neg h]
    intro hc
    exact h (by simp [hc])

theorem round2_half : round2 (1/2) = 1/2 := by
  norm_num [round2, roundHalfEven]

theorem round2_097 : round2 (97/100) = 97/100 := by
  norm_num [round2, roundHalfEven]

/-- C3: the risk result always has an integer score in [0,100], a
non-negative time-to-impact that is at most 120 whenever the risk level is
high or critical and is exactly 60 when the forecast peak time failed to
parse, a non-empty drivers list, and a confidence in [0.5, 0.97]. -/
theorem compute_sla_risk_bounds (f : FeatureVector) (anomalies : List AgentAnomaly)
    (forecast : RiskForecastIn) (recommendations : List Recommendation) (now : ℚ) :
    0 ≤ (compute_sla_risk f anomalies forecast recommendations now).risk_score ∧
    (compute_sla_risk f anomalies forecast recommendations now).risk_score ≤ 100 ∧
    0 ≤ (compute_sla_risk f anomalies forecast recommendations now).time_to_impact_minutes ∧
    ((compute_sla_risk f anomalies forecast recommendations now).risk_level = "high" ∨
      (compute_sla_risk f anomalies forecast recommendations now).risk_level = "critical" →
      (compute_sla_risk f anomalies forecast recommendations now).time_to_impact_minutes ≤ 120) ∧
    (forecast.peak_time = Option.none →
      (compute_sla_risk f anomalies forecast recommendations now).time_to_impact_minutes = 60) ∧
    (compute_sla_risk f anomalies forecast recommendations now).drivers ≠ [] ∧
    (1/2 : ℚ) ≤ (compute_sla_risk f anomalies forecast recommendations now).confidence ∧
    (compute_sla_risk f anomalies forecast recommendations now).confidence ≤ 97/100 := by
  simp only [compute_sla_risk]
  refine ⟨?_, ?_, ?_, ?_, ?_, ?_, ?_, ?_⟩
  · exact le_max_left _ _
  · exact max_le (by norm_num) (min_le_left _ _)
  · exact ite_nonneg (by norm_num) (parse_tti_nonneg _ _)
  · intro h
    by_cases hc : 120 < parse_time_to_impact_minutes forecast.peak_time f.timestamp
    · rw [if_pos ⟨h, hc⟩]
    · rw [if_neg (fun hand => hc hand.2)]
      omega
  · intro hnone
    simp only [hnone, parse_time_to_impact_minutes]
    rw [if_neg]
    intro hand
    omega
  · exact ite_default_ne_nil _ _
  · calc (1/2 : ℚ) = round2 (1/2) := round2_half.symm
      _ ≤ _ := round2_mono (le_max_left _ _)
  · calc round2 (max (1/2) (min (97/100) _)) ≤ round2 (97/100) :=
        round2_mono (max_le (by norm_num) (min_le_left _ _))
      _ = 97/100 := round2_097

/-- C3 witness: the spec's example inputs (cpu 92, memory 90, storage 75,
one critical anomaly, high forecast risk peaking in 20 minutes, one critical
recommendation) give a critical risk level and a time-to-impact within the
cap. -/
theorem compute_sla_risk_witness :
    (compute_sla_risk c3Features c3Anoms c3Forecast c3Recos 0).risk_level = "critical" ∧
    (compute_sla_risk c3Features c3Anoms c3Forecast c3Recos 0).time_to_impact_minutes ≤ 120 :=
  have hlevel : (compute_sla_risk c3Features c3Anoms c3Forecast c3Recos 0).risk_level =
      "critical" := by
    norm_num [compute_sla_risk, c3Features, c3Anoms, c3Forecast, c3Recos, mkFv,
      pyTrunc, anomalySeverityPoints]
  ⟨hlevel,
   (compute_sla_risk_bounds c3Features c3Anoms c3Forecast c3Recos 0).2.2.2.1
     (Or.inr hlevel)⟩

/-! ## C5 — recommendation fallback -/

/-- C5: the recommendation list is never empty, and when no cpu_spike or
memory_pressure anomaly is present, the forecast risk level is not "high"
and storage is at most 85, it is exactly the single low-priority
`maintain_baseline` recommendation. -/
theorem generate_recommendations_fallback (f : FeatureVector)
    (anomalies : List AgentAnomaly) (forecast : ForecastResult) :
    generate_recommendations f anomalies forecast ≠ [] ∧
    (¬containsAnomaly anomalies "cpu_spike" →
      ¬containsAnomaly anomalies "memory_pressure" →
      forecast.risk_level ≠ "high" → f.storage_usage ≤ 85 →
      generate_recommendations f anomalies forecast = [maintainBaselineReco] ∧
      maintainBaselineReco.type = "maintain_baseline" ∧
      maintainBaselineReco.priority = "low") := by
  constructor
  · simp only [generate_recommendations]
    exact ite_default_ne_nil _ _
  · intro h1 h2 h3 h4
    refine ⟨?_, rfl, rfl⟩
    simp [generate_recommendations, h1, h2, h3, not_lt.mpr h4]

/-- C5 witness: quiet inputs (no anomalies, low forecast risk, storage 10)
produce exactly the maintain_baseline fallback. -/
theorem generate_recommendations_witness :
    generate_recommendations c5Features [] c5Forecast = [maintainBaselineReco] :=
  ((generate_recommendations_fallback c5Features [] c5Forecast).2
    (by simp [containsAnomaly]) (by simp [containsAnomaly])
    (by simp [c5Forecast]) (by norm_num [c5Features, mkFv])).1

/-! ## C4 — forecast series shape and bounds -/

theorem round2_zero : round2 0 = 0 := by
  simpa using round2_intCast 0

theorem round2_hundred : round2 100 = 100 := by
  simpa using round2_intCast 100

theorem forecastEntry_bounds (slope intercept : ℚ) (n : ℕ) (baseTs interval : ℚ)
    (i : ℕ) :
    0 ≤ (forecastEntry slope intercept n baseTs interval i).lower_bound ∧
    (forecastEntry slope intercept n baseTs interval i).lower_bound ≤
      (forecastEntry slope intercept n baseTs interval i).value ∧
    (forecastEntry slope intercept n baseTs interval i).value ≤
      (forecastEntry slope intercept n baseTs interval i).upper_bound ∧
    (forecastEntry slope intercept n baseTs interval i).upper_bound ≤ 100 := by
  have hw : (0 : ℚ) ≤ 4 + |slope| := by positivity
  have hpred0 : (0 : ℚ) ≤ clamp (intercept + slope * ((n : ℚ) + (i : ℚ))) 0 100 :=
    lo_le_clamp _ _ _
  have hpred100 : clamp (intercept + slope * ((n : ℚ) + (i : ℚ))) 0 100 ≤ 100 :=
    clamp_le_hi _ _ _ (by norm_num)
  have hself : clamp (clamp (intercept + slope * ((n : ℚ) + (i : ℚ))) 0 100) 0 100 =
      clamp (intercept + slope * ((n : ℚ) + (i : ℚ))) 0 100 :=
    clamp_eq_self _ _ _ hpred0 hpred100
  refine ⟨?_, ?_, ?_, ?_⟩
  · have h1 := round2_mono (lo_le_clamp
      (clamp (intercept + slope * ((n : ℚ) + (i : ℚ))) 0 100 - (4 + |slope|)) 0 100)
    rw [round2_zero] at h1
    exact h1
  · refine round2_mono ?_
    have h1 : clamp (clamp (intercept + slope * ((n : ℚ) + (i : ℚ))) 0 100 -
          (4 + |slope|)) 0 100 ≤
        clamp (clamp (intercept + slope * ((n : ℚ) + (i : ℚ))) 0 100) 0 100 :=
      clamp_mono _ _ (by linarith)
    rw [hself] at h1
    exact h1
  · refine round2_mono ?_
    have h1 : clamp (clamp (intercept + slope * ((n : ℚ) + (i : ℚ))) 0 100) 0 100 ≤
        clamp (clamp (intercept + slope * ((n : ℚ) + (i : ℚ))) 0 100 +
          (4 + |slope|)) 0 100 :=
      clamp_mono _ _ (by linarith)
    rw [hself] at h1
    exact h1
  · have h1 := round2_mono (clamp_le_hi
      (clamp (intercept + slope * ((n : ℚ) + (i : ℚ))) 0 100 + (4 + |slope|)) 0 100
      (by norm_num))
    rw [round2_hundred] at h1
    exact h1

/-- C4 (amended): for a non-empty history and any requested point count, the
forecast series has exactly that many entries; the i-th entry's value is the
two-decimal rounding of clamp(intercept + slope×(n+i), 0, 100) for the
least-squares fit over the history's CPU values, its bounds are the
two-decimal roundings of that prediction ∓ (4 + |slope|) clamped to [0,100],
all three lie in [0,100] with lower ≤ value ≤ upper, and its timestamp is
the last history timestamp plus i×interval. -/
theorem forecast_load_series_spec (history : List FeatureVector) (points : ℕ)
    (interval : ℚ) (now : ℚ) (hne : history ≠ []) :
    (forecast_load history points interval now).forecast_series.length = points ∧
    (∀ i, i < points →
      ((forecast_load history points interval now).forecast_series.getD i
          ⟨0, 0, 0, 0⟩) =
        forecastEntry (linear_regression (history.map (·.cpu_usage))).1
          (linear_regression (history.map (·.cpu_usage))).2 history.length
          ((history.getLast hne).timestamp) interval (i + 1) ∧
      (forecastEntry (linear_regression (history.map (·.cpu_usage))).1
          (linear_regression (history.map (·.cpu_usage))).2 history.length
          ((history.getLast hne).timestamp) interval (i + 1)).value =
        round2 (clamp ((linear_regression (history.map (·.cpu_usage))).2 +
          (linear_regression (history.map (·.cpu_usage))).1 *
            ((history.length : ℚ) + ((i : ℚ) + 1))) 0 100) ∧
      (forecastEntry (linear_regression (history.map (·.cpu_usage))).1
          (linear_regression (history.map (·.cpu_usage))).2 history.length
          ((history.getLast hne).timestamp) interval (i + 1)).timestamp =
        (history.getLast hne).timestamp + ((i : ℚ) + 1) * interval ∧
      0 ≤ ((forecast_load history points interval now).forecast_series.getD i
          ⟨0, 0, 0, 0⟩).lower_bound ∧
      ((forecast_load history points interval now).forecast_series.getD i
          ⟨0, 0, 0, 0⟩).lower_bound ≤
        ((forecast_load history points interval now).forecast_series.getD i
          ⟨0, 0, 0, 0⟩).value ∧
      ((forecast_load history points interval now).forecast_series.getD i
          ⟨0, 0, 0, 0⟩).value ≤
        ((forecast_load history points interval now).forecast_series.getD i
          ⟨0, 0, 0, 0⟩).upper_bound ∧
      ((forecast_load history points interval now).forecast_series.getD i
          ⟨0, 0, 0, 0⟩).upper_bound ≤ 100) := by
  obtain ⟨a, t, rfl⟩ : ∃ a t, history = a :: t := by
    cases history with
    | nil => exact absurd rfl hne
    | cons a t => exact ⟨a, t, rfl⟩
  have hseries : (forecast_load (a :: t) points interval now).forecast_series =
      (List.range points).map (fun j =>
        forecastEntry (linear_regression ((a :: t).map (·.cpu_usage))).1
          (linear_regression ((a :: t).map (·.cpu_usage))).2 ((a :: t).length)
          (((a :: t).getLast (by simp)).timestamp) interval (j + 1)) := by
    simp only [forecast_load]
    simp [List.length_map]
  have hget : ∀ i, i < points →
      ((forecast_load (a :: t) points interval now).forecast_series.getD i
          ⟨0, 0, 0, 0⟩) =
        forecastEntry (linear_regression ((a :: t).map (·.cpu_usage))).1
          (linear_regression ((a :: t).map (·.cpu_usage))).2 ((a :: t).length)
          (((a :: t).getLast (by simp)).timestamp) interval (i + 1) := by
    intro i hi
    rw [hseries, List.getD_eq_getElem?_getD, List.getElem?_map,
      List.getElem?_range hi]
    rfl
  refine ⟨by rw [hseries]; simp, ?_⟩
  intro i hi
  have hcast : ((i + 1 : ℕ) : ℚ) = (i : ℚ) + 1 := by push_cast; ring
  refine ⟨hget i hi, ?_, ?_, ?_, ?_, ?_, ?_⟩
  · simp only [forecastEntry, hcast]
  · simp only [forecastEntry, hcast]
  · rw [hget i hi]
    exact (forecastEntry_bounds _ _ _ _ _ _).1
  · rw [hget i hi]
    exact (forecastEntry_bounds _ _ _ _ _ _).2.1
  · rw [hget i hi]
    exact (forecastEntry_bounds _ _ _ _ _ _).2.2.1
  · rw [hget i hi]
    exact (forecastEntry_bounds _ _ _ _ _ _).2.2.2

/-- C4 witness: one requested point over the three-point history gives a
one-entry series whose bounds bracket the value inside [0,100]. -/
theorem forecast_load_series_witness :
    (forecast_load c4Hist 1 5 0).forecast_series.length = 1 ∧
    0 ≤ ((forecast_load c4Hist 1 5 0).forecast_series.getD 0 ⟨0, 0, 0, 0⟩).lower_bound ∧
    ((forecast_load c4Hist 1 5 0).forecast_series.getD 0 ⟨0, 0, 0, 0⟩).lower_bound ≤
      ((forecast_load c4Hist 1 5 0).forecast_series.getD 0 ⟨0, 0, 0, 0⟩).value ∧
    ((forecast_load c4Hist 1 5 0).forecast_series.getD 0 ⟨0, 0, 0, 0⟩).value ≤
      ((forecast_load c4Hist 1 5 0).forecast_series.getD 0 ⟨0, 0, 0, 0⟩).upper_bound ∧
    ((forecast_load c4Hist 1 5 0).forecast_series.getD 0 ⟨0, 0, 0, 0⟩).upper_bound ≤ 100 :=
  have h := forecast_load_series_spec c4Hist 1 5 0 (by simp [c4Hist])
  ⟨h.1, (h.2 0 (by norm_num)).2.2.2.1, (h.2 0 (by norm_num)).2.2.2.2.1,
   (h.2 0 (by norm_num)).2.2.2.2.2.1, (h.2 0 (by norm_num)).2.2.2.2.2.2⟩

theorem forecast_load_series_eq (a : FeatureVector) (t : List FeatureVector)
    (points : ℕ) (interval now : ℚ) :
    (forecast_load (a :: t) points interval now).forecast_series =
      (List.range points).map (fun j =>
        forecastEntry (linear_regression ((a :: t).map (·.cpu_usage))).1
          (linear_regression ((a :: t).map (·.cpu_usage))).2
          (((a :: t).map (·.cpu_usage)).length)
          (((a :: t).getLast (by simp)).timestamp) interval (j + 1)) := by
  simp only [forecast_load]

set_option maxRecDepth 8000 in
/-- C4 counterexample: over the CPU history 0, 0, 1 (slope 1/2, intercept
-1/6) the first predicted value clamp(intercept + slope×4) = 11/6 is not
representable with two decimals, and the stored value is its rounding 1.83 —
so the entry's value is not clamp(intercept + slope×(n+i), 0, 100) exactly
as the claim states. -/
theorem forecast_value_rounding_counterexample :
    (forecast_load c4Hist 1 5 0).forecast_series.map (·.value) = [183/100] ∧
    clamp ((linear_regression (c4Hist.map (·.cpu_usage))).2 +
      (linear_regression (c4Hist.map (·.cpu_usage))).1 * ((c4Hist.length : ℚ) + 1))
      0 100 = 11/6 ∧
    (183/100 : ℚ) ≠ 11/6 := by
  have hreg2 : linear_regression [(0 : ℚ), 0, 1] = (1/2, -(1/6)) := by
    norm_num [linear_regression, List.range_succ]
  have hmap : List.map (·.cpu_usage)
      [mkFv 0 0 0 0 0, mkFv 0 0 0 0 5, mkFv 1 0 0 0 10] = [(0 : ℚ), 0, 1] := rfl
  refine ⟨?_, ?_, by norm_num⟩
  · rw [show c4Hist = mkFv 0 0 0 0 0 :: [mkFv 0 0 0 0 5, mkFv 1 0 0 0 10] from rfl,
      forecast_load_series_eq, show List.range 1 = [0] from rfl]
    rw [hmap, hreg2]
    rw [List.map_cons, List.map_nil]
    have hf : ⌊(550/3 : ℚ)⌋ = 183 := by norm_num
    have hRH : roundHalfEven (550/3 : ℚ) = 183 := by
      unfold roundHalfEven
      dsimp only
      rw [hf, if_pos (by norm_num)]
    norm_num [forecastEntry, clamp, min_def, max_def, round2]
    rw [hRH]
    norm_num
  · rw [show c4Hist.map (·.cpu_usage) = List.map (·.cpu_usage)
        [mkFv 0 0 0 0 0, mkFv 0 0 0 0 5, mkFv 1 0 0 0 10] from rfl, hmap, hreg2]
    norm_num [clamp, min_def, max_def, c4Hist]

/-! ## C9 — fingerprint is order-independent over entity keys -/

theorem alookup_perm {α : Type} (l1 l2 : List (String × α)) (k : String)
    (hnd : (l1.map Prod.fst).Nodup) (hp : l1.Perm l2) :
    alookup l1 k = alookup l2 k := by
  have hnd2 : (l2.map Prod.fst).Nodup := ((hp.map Prod.fst).nodup_iff).mp hnd
  cases h1 : alookup l1 k with
  | some v =>
    exact (alookup_eq_some_of_mem_nodup l2 k v hnd2
      (hp.subset (mem_of_alookup_eq_some _ _ _ h1))).symm
  | none =>
    cases h2 : alookup l2 k with
    | none => rfl
    | some v =>
      have := alookup_eq_some_of_mem_nodup l1 k v hnd
        (hp.symm.subset (mem_of_alookup_eq_some _ _ _ h2))
      rw [h1] at this
      exact absurd this (by simp)

theorem pySorted_perm (l1 l2 : List String) (hp : l1.Perm l2) :
    l1.mergeSort (fun a b => decide (a ≤ b)) =
      l2.mergeSort (fun a b => decide (a ≤ b)) := by
  have h1 : List.Sorted (· ≤ ·) (l1.mergeSort (fun a b => decide (a ≤ b))) :=
    List.sorted_mergeSort' l1
  have h2 : List.Sorted (· ≤ ·) (l2.mergeSort (fun a b => decide (a ≤ b))) :=
    List.sorted_mergeSort' l2
  exact List.eq_of_perm_of_sorted
    (((List.mergeSort_perm l1 _).trans hp).trans (List.mergeSort_perm l2 _).symm) h1 h2

/-- C9: two entity mappings that are equal as sets of key-value pairs (a
permutation, with keys unique as in a Python dict) produce identical
fingerprints, whatever the insertion order. -/
theorem fingerprint_entity_order_independent (alertType mode : String)
    (e1 e2 : List (String × String))
    (h1 : (e1.map Prod.fst).Nodup) (h2 : (e2.map Prod.fst).Nodup)
    (hp : e1.Perm e2) :
    fingerprint alertType e1 mode = fingerprint alertType e2 mode := by
  unfold fingerprint
  have hkeys : (e1.map Prod.fst).Perm (e2.map Prod.fst) := hp.map _
  have hsort := pySorted_perm _ _ hkeys
  have hfun : (fun k => k ++ "=" ++ ((alookup e1 k).getD "")) =
      (fun k => k ++ "=" ++ ((alookup e2 k).getD "")) :=
    funext fun k => by rw [alookup_perm e1 e2 k h1 hp]
  have hempty : e1.isEmpty = e2.isEmpty := by
    have hlen := hp.length_eq
    cases e1 <;> cases e2 <;> simp_all
  rw [hsort, hfun, hempty]

/-- C9 witness: `{a: 1, b: 2}` and `{b: 2, a: 1}` fingerprint identically. -/
theorem fingerprint_entity_order_witness :
    ([("a", "1"), ("b", "2")].map (Prod.fst (α := String) (β := String))).Nodup ∧
    List.Perm [("a", "1"), ("b", "2")] [("b", "2"), ("a", "1")] ∧
    fingerprint "cpu_spike" [("a", "1"), ("b", "2")] "demo" =
      fingerprint "cpu_spike" [("b", "2"), ("a", "1")] "demo" :=
  ⟨by decide, List.Perm.swap _ _ _,
   fingerprint_entity_order_independent "cpu_spike" "demo"
     [("a", "1"), ("b", "2")] [("b", "2"), ("a", "1")]
     (by decide) (by decide) (List.Perm.swap _ _ _)⟩

/-! ## C8 — audit listing: scoping, sortedness, pagination -/

theorem safeLimit_pos (limit : ℤ) : 1 ≤ safeLimit limit := le_max_left _ _

theorem safeLimit_toNat_pos (limit : ℤ) : 1 ≤ (safeLimit limit).toNat := by
  have := safeLimit_pos limit
  omega

theorem safeLimit_cast (limit : ℤ) : (((safeLimit limit).toNat : ℤ)) = safeLimit limit :=
  Int.toNat_of_nonneg (le_trans (by norm_num) (safeLimit_pos limit))

theorem mem_sortedVisible {s : AuditStoreSt} {actor : Actor} {e : AuditEvent}
    (he : e ∈ sortedVisible s actor) : e ∈ visibleFor s actor :=
  (List.mergeSort_perm _ _).subset he

theorem visibleFor_sublist (s : AuditStoreSt) (actor : Actor) :
    (visibleFor s actor).Sublist s.events := by
  unfold visibleFor
  split_ifs
  · exact List.Sublist.refl _
  · exact List.filter_sublist _

theorem list_events_page_eq (s : AuditStoreSt) (actor : Actor) (limit : ℤ)
    (cursor : Option String) :
    (list_events s actor limit cursor).1 =
      ((sortedVisible s actor).drop (cursorStart (sortedVisible s actor) cursor)).take
        (safeLimit limit).toNat := rfl

theorem list_events_next_eq (s : AuditStoreSt) (actor : Actor) (limit : ℤ)
    (cursor : Option String) :
    (list_events s actor limit cursor).2 =
      (if ((cursorStart (sortedVisible s actor) cursor : ℤ) + safeLimit limit <
            ((sortedVisible s actor).length : ℤ) ∧
          ¬(((sortedVisible s actor).drop
              (cursorStart (sortedVisible s actor) cursor)).take
                (safeLimit limit).toNat).isEmpty)
        then ((((sortedVisible s actor).drop
            (cursorStart (sortedVisible s actor) cursor)).take
              (safeLimit limit).toNat).getLast?).map (·.id)
        else none) := rfl

theorem mem_page_mem_sortedVisible {s : AuditStoreSt} {actor : Actor} {limit : ℤ}
    {cursor : Option String} {e : AuditEvent}
    (he : e ∈ (list_events s actor limit cursor).1) : e ∈ sortedVisible s actor := by
  rw [list_events_page_eq] at he
  exact List.mem_of_mem_drop (List.mem_of_mem_take he)

theorem pairwise_sortedVisible (s : AuditStoreSt) (actor : Actor) :
    (sortedVisible s actor).Pairwise (fun x y => y.ts ≤ x.ts) := by
  have h := @List.sorted_mergeSort AuditEvent (fun x y => decide (y.ts ≤ x.ts))
    (fun a b c hab hbc => decide_eq_true
      (le_trans (of_decide_eq_true hbc) (of_decide_eq_true hab)))
    (fun a b => by
      rcases le_total b.ts a.ts with h | h <;> simp [h])
    (visibleFor s actor)
  exact h.imp (fun hab => of_decide_eq_true hab)

theorem ids_nodup_sortedVisible {s : AuditStoreSt} (actor : Actor)
    (hnd : (s.events.map (·.id)).Nodup) :
    ((sortedVisible s actor).map (·.id)).Nodup := by
  have h2 : ((visibleFor s actor).map (·.id)).Nodup :=
    ((visibleFor_sublist s actor).map _).nodup hnd
  exact (((List.mergeSort_perm (visibleFor s actor) _).map _).nodup_iff).mpr h2

theorem ids_ne_sortedVisible {s : AuditStoreSt} (actor : Actor)
    (hne : ∀ e ∈ s.events, e.id ≠ "") :
    ∀ e ∈ sortedVisible s actor, e.id ≠ "" :=
  fun e he => hne e ((visibleFor_sublist s actor).subset (mem_sortedVisible he))

theorem findIdx_id_aux (L : List AuditEvent) (tid : String) :
    ∀ (j : ℕ) (hj : j < L.length), L[j].id = tid →
      (∀ k (hk : k < L.length), k < j → L[k].id ≠ tid) →
      ∀ i, L.findIdx? (fun x => decide (x.id = tid)) i = some (i + j) := by
  induction L with
  | nil =>
    intro j hj
    simp at hj
  | cons a t ih =>
    intro j hj hget hfirst i
    rw [List.findIdx?_cons]
    cases j with
    | zero =>
      rw [if_pos (decide_eq_true (by simpa using hget))]
      simp
    | succ k =>
      have ha : ¬(a.id = tid) := by
        have := hfirst 0 (by omega) (by omega)
        simpa using this
      rw [if_neg (by simpa using ha)]
      have hk : k < t.length := by simpa using hj
      have hgetT : t[k].id = tid := by simpa using hget
      have hfirstT : ∀ m (hm : m < t.length), m < k → t[m].id ≠ tid := by
        intro m hm hmk
        have := hfirst (m + 1) (by simpa using hm) (by omega)
        simpa using this
      have := ih k hk hgetT hfirstT (i + 1)
      rw [this]
      congr 1
      omega

theorem findIdx_id_eq (L : List AuditEvent) (hnd : (L.map (·.id)).Nodup)
    (j : ℕ) (hj : j < L.length) :
    L.findIdx? (fun x => decide (x.id = L[j].id)) = some j := by
  have hfirst : ∀ k (hk : k < L.length), k < j → L[k].id ≠ L[j].id := by
    intro k hk hkj hcontra
    have hk2 : k < (L.map (·.id)).length := by simpa using hk
    have hj2 : j < (L.map (·.id)).length := by simpa using hj
    have : (L.map (·.id))[k] = (L.map (·.id))[j] := by
      rw [List.getElem_map, List.getElem_map]
      exact hcontra
    have := (hnd.getElem_inj_iff).mp this
    omega
  have := findIdx_id_aux L (L[j].id) j hj rfl hfirst 0
  simpa using this

theorem cursorStart_of_getElem (L : List AuditEvent)
    (hnd : (L.map (·.id)).Nodup) (hne : ∀ e ∈ L, e.id ≠ "")
    (j : ℕ) (hj : j < L.length) :
    cursorStart L (some (L[j].id)) = j + 1 := by
  unfold cursorStart
  dsimp only
  rw [if_pos (hne (L[j]) (L.getElem_mem hj))]
  rw [findIdx_id_eq L hnd j hj]

theorem slice_next_resolves (L : List AuditEvent) (limit : ℤ)
    (hnd : (L.map (·.id)).Nodup) (hne : ∀ e ∈ L, e.id ≠ "")
    (st : ℕ) (c' : String)
    (h : (if ((st : ℤ) + safeLimit limit < (L.length : ℤ) ∧
            ¬((L.drop st).take (safeLimit limit).toNat).isEmpty)
          then (((L.drop st).take (safeLimit limit).toNat).getLast?).map (·.id)
          else none) = some c') :
    cursorStart L (some c') = st + (safeLimit limit).toNat ∧
      st + (safeLimit limit).toNat ≤ L.length := by
  by_cases hcond : ((st : ℤ) + safeLimit limit < (L.length : ℤ) ∧
      ¬((L.drop st).take (safeLimit limit).toNat).isEmpty)
  · rw [if_pos hcond] at h
    have hlt : (st : ℤ) + safeLimit limit < (L.length : ℤ) := hcond.1
    have hsl1 : 1 ≤ (safeLimit limit).toNat := safeLimit_toNat_pos limit
    have hlt' : st + (safeLimit limit).toNat < L.length := by
      have hc := safeLimit_cast limit
      omega
    have hplen : ((L.drop st).take (safeLimit limit).toNat).length =
        (safeLimit limit).toNat := by
      rw [List.length_take, List.length_drop]
      omega
    have hidx : st + ((safeLimit limit).toNat - 1) < L.length := by omega
    have hgl : ((L.drop st).take (safeLimit limit).toNat).getLast? =
        some (L[st + ((safeLimit limit).toNat - 1)]) := by
      rw [List.getLast?_eq_getElem?, hplen]
      rw [List.getElem?_eq_getElem (by omega)]
      congr 1
      rw [List.getElem_take, List.getElem_drop]
    rw [hgl] at h
    have h2 : (L[st + ((safeLimit limit).toNat - 1)]).id = c' :=
      Option.some.inj h
    clear h
    have h := h2
    constructor
    · rw [← h, cursorStart_of_getElem L hnd hne _ hidx]
      omega
    · omega
  · rw [if_neg hcond] at h
    exact absurd h (by simp)

theorem ids_get_inj (L : List AuditEvent) (hnd : (L.map (·.id)).Nodup)
    (i1 i2 : ℕ) (h1 : i1 < L.length) (h2 : i2 < L.length)
    (hid : (L[i1]).id = (L[i2]).id) : i1 = i2 := by
  have hm1 : i1 < (L.map (·.id)).length := by simpa using h1
  have hm2 : i2 < (L.map (·.id)).length := by simpa using h2
  have hg : (L.map (·.id))[i1] = (L.map (·.id))[i2] := by
    rw [List.getElem_map, List.getElem_map]
    exact hid
  exact (hnd.getElem_inj_iff).mp hg

theorem pageChain_spec (s : AuditStoreSt) (actor : Actor) (limit : ℤ)
    (hnd : ((sortedVisible s actor).map (·.id)).Nodup)
    (hne : ∀ e ∈ sortedVisible s actor, e.id ≠ "") :
    ∀ k, ((pageChain s actor limit k).1 = [] ∧ (pageChain s actor limit k).2 = none) ∨
      ((pageChain s actor limit k).1 =
          ((sortedVisible s actor).drop ((safeLimit limit).toNat * k)).take
            (safeLimit limit).toNat ∧
        ((pageChain s actor limit k).2 = none ∨
          ∃ c, (pageChain s actor limit k).2 = some c ∧
            cursorStart (sortedVisible s actor) (some c) =
              (safeLimit limit).toNat * k + (safeLimit limit).toNat ∧
            (safeLimit limit).toNat * k + (safeLimit limit).toNat ≤
              (sortedVisible s actor).length)) := by
  intro k
  induction k with
  | zero =>
    right
    constructor
    · rw [show pageChain s actor limit 0 = list_events s actor limit none from rfl,
        list_events_page_eq]
      simp [cursorStart]
    · cases hnx : (pageChain s actor limit 0).2 with
      | none => exact Or.inl rfl
      | some c =>
        right
        refine ⟨c, rfl, ?_⟩
        have h := hnx
        rw [show pageChain s actor limit 0 = list_events s actor limit none from rfl,
          list_events_next_eq,
          show cursorStart (sortedVisible s actor) none = 0 from rfl] at h
        obtain ⟨h1, h2⟩ := slice_next_resolves (sortedVisible s actor) limit hnd hne 0 c h
        constructor
        · rw [h1]
          omega
        · omega
  | succ k ih =>
    rcases ih with ⟨hp, hn⟩ | ⟨hpage, hnext⟩
    · left
      have hstep : pageChain s actor limit (k + 1) = ([], none) := by
        rw [show pageChain s actor limit (k + 1) =
          (match (pageChain s actor limit k).2 with
            | some c => list_events s actor limit (some c)
            | none => ([], none)) from rfl, hn]
      rw [hstep]
      exact ⟨rfl, rfl⟩
    · rcases hnext with hnone | ⟨c, hc, hcs, hlen⟩
      · left
        have hstep : pageChain s actor limit (k + 1) = ([], none) := by
          rw [show pageChain s actor limit (k + 1) =
            (match (pageChain s actor limit k).2 with
              | some c => list_events s actor limit (some c)
              | none => ([], none)) from rfl, hnone]
        rw [hstep]
        exact ⟨rfl, rfl⟩
      · have hstep : pageChain s actor limit (k + 1) =
            list_events s actor limit (some c) := by
          rw [show pageChain s actor limit (k + 1) =
            (match (pageChain s actor limit k).2 with
              | some c => list_events s actor limit (some c)
              | none => ([], none)) from rfl, hc]
        right
        constructor
        · rw [hstep, list_events_page_eq, hcs, Nat.mul_succ]
        · cases hnx : (pageChain s actor limit (k + 1)).2 with
          | none => exact Or.inl rfl
          | some c2 =>
            right
            refine ⟨c2, rfl, ?_⟩
            have h := hnx
            rw [hstep, list_events_next_eq, hcs] at h
            obtain ⟨h1, h2⟩ := slice_next_resolves (sortedVisible s actor) limit hnd hne
              ((safeLimit limit).toNat * k + (safeLimit limit).toNat) c2 h
            constructor
            · rw [h1, Nat.mul_succ]
            · rw [Nat.mul_succ]
              exact h2

/-- C8 (amended): the audit listing is role-scoped (a non-admin only ever
sees events carrying their own email, and inserting or removing another
actor's event leaves a non-admin's listing unchanged), an admin's visible
set is the whole event list, every page is sorted newest-first by `ts`, and
— provided the stored events carry pairwise-distinct, non-empty ids, as
store-assigned ids are — pages obtained by repeatedly following
`next_cursor` never repeat an event. -/
theorem list_events_scoping_sorted_pagination (s : AuditStoreSt) (actor : Actor)
    (limit : ℤ) (cursor : Option String) :
    (actor.role ≠ "admin" →
      ∀ e ∈ (list_events s actor limit cursor).1, e.actor_email = actor.email) ∧
    (∀ pre post : List AuditEvent, ∀ e : AuditEvent,
      actor.role ≠ "admin" → e.actor_email ≠ actor.email →
      list_events { s with events := pre ++ e :: post } actor limit cursor =
        list_events { s with events := pre ++ post } actor limit cursor) ∧
    (actor.role = "admin" → visibleFor s actor = s.events) ∧
    (list_events s actor limit cursor).1.Pairwise (fun x y => y.ts ≤ x.ts) ∧
    ((s.events.map (·.id)).Nodup → (∀ e ∈ s.events, e.id ≠ "") →
      ∀ i j, i < j → ∀ e, e ∈ (pageChain s actor limit i).1 →
        e ∉ (pageChain s actor limit j).1) := by
  refine ⟨?_, ?_, ?_, ?_, ?_⟩
  · intro h e he
    have hv := mem_sortedVisible (mem_page_mem_sortedVisible he)
    unfold visibleFor at hv
    rw [if_neg h] at hv
    exact of_decide_eq_true (List.mem_filter.mp hv).2
  · intro pre post e hrole hmail
    have hv : visibleFor { s with events := pre ++ e :: post } actor =
        visibleFor { s with events := pre ++ post } actor := by
      unfold visibleFor
      rw [if_neg hrole, if_neg hrole]
      simp only [List.filter_append, List.filter_cons, decide_eq_false hmail]
      rfl
    simp only [list_events, sortedVisible, hv]
  · intro h
    unfold visibleFor
    rw [if_pos h]
  · rw [list_events_page_eq]
    exact List.Pairwise.sublist
      ((List.take_sublist _ _).trans (List.drop_sublist _ _))
      (pairwise_sortedVisible s actor)
  · intro hnd hne i j hij e hei hej
    have hndL := ids_nodup_sortedVisible actor hnd
    have hneL := ids_ne_sortedVisible actor hne
    have spec := pageChain_spec s actor limit hndL hneL
    rcases spec i with ⟨hi1, -⟩ | ⟨hi1, -⟩
    · rw [hi1] at hei
      simp at hei
    rcases spec j with ⟨hj1, -⟩ | ⟨hj1, -⟩
    · rw [hj1] at hej
      simp at hej
    rw [hi1] at hei
    rw [hj1] at hej
    obtain ⟨p, hp, hpe⟩ := List.getElem_of_mem hei
    obtain ⟨q, hq, hqe⟩ := List.getElem_of_mem hej
    rw [List.getElem_take, List.getElem_drop] at hpe
    rw [List.getElem_take, List.getElem_drop] at hqe
    have hp2 := hp
    rw [List.length_take, List.length_drop] at hp2
    have hq2 := hq
    rw [List.length_take, List.length_drop] at hq2
    have hpidx : (safeLimit limit).toNat * i + p < (sortedVisible s actor).length := by
      omega
    have hqidx : (safeLimit limit).toNat * j + q < (sortedVisible s actor).length := by
      omega
    have heq := ids_get_inj (sortedVisible s actor) hndL _ _ hpidx hqidx
      ((congrArg (fun x => x.id) hpe).trans (congrArg (fun x => x.id) hqe).symm)
    have hpsl : p < (safeLimit limit).toNat := by omega
    have key : (safeLimit limit).toNat * i + (safeLimit limit).toNat ≤
        (safeLimit limit).toNat * j := by
      have := Nat.mul_le_mul_left (safeLimit limit).toNat hij
      rw [Nat.mul_succ] at this
      exact this
    have hlt2 : (safeLimit limit).toNat * i + p <
        (safeLimit limit).toNat * j + q :=
      lt_of_lt_of_le (Nat.add_lt_add_left hpsl _)
        (le_trans key (Nat.le_add_right _ _))
    exact absurd heq (Nat.ne_of_lt hlt2)

/-- C8 witness: over three operator events with distinct store-assigned ids
and page size 2, the first event appears on page 0 and never again on
page 1. -/
theorem audit_pagination_witness :
    (wAuditStore.events.map (·.id)).Nodup ∧
    (∀ e ∈ wAuditStore.events, e.id ≠ "") ∧
    wAuditE1 ∈ (pageChain wAuditStore wOperator 2 0).1 ∧
    wAuditE1 ∉ (pageChain wAuditStore wOperator 2 1).1 := by
  have hsv : sortedVisible wAuditStore wOperator = [wAuditE1, wAuditE2, wAuditE3] := by
    unfold sortedVisible
    rw [show visibleFor wAuditStore wOperator = [wAuditE1, wAuditE2, wAuditE3] from by
      unfold visibleFor
      rw [if_neg (by decide)]
      decide]
    refine List.mergeSort_of_sorted
      (List.Pairwise.cons ?_ (List.Pairwise.cons ?_
        (List.Pairwise.cons ?_ List.Pairwise.nil)))
    · intro b hb
      rw [List.mem_cons, List.mem_singleton] at hb
      rcases hb with rfl | rfl
      · exact decide_eq_true (String.le_iff_toList_le.mpr (by decide))
      · exact decide_eq_true (String.le_iff_toList_le.mpr (by decide))
    · intro b hb
      rw [List.mem_singleton] at hb
      subst hb
      exact decide_eq_true (String.le_iff_toList_le.mpr (by decide))
    · intro b hb
      exact absurd hb (List.not_mem_nil b)
  have h0 : pageChain wAuditStore wOperator 2 0 =
      ([wAuditE1, wAuditE2], some "audit-00000002") := by
    show list_events wAuditStore wOperator 2 none = _
    unfold list_events
    rw [hsv]
    decide
  refine ⟨by decide, by decide, ?_, ?_⟩
  · rw [h0]
    decide
  · exact (list_events_scoping_sorted_pagination wAuditStore wOperator 2 none).2.2.2.2
      (by decide) (by decide) 0 1 (by norm_num) wAuditE1 (by rw [h0]; decide)

/-- C8 counterexample: with a caller-supplied duplicate id "x" on two events,
the page chain repeats an event — the second event appears both on page 0
and on page 1, because the cursor scan finds the FIRST event with the
cursor's id. So the no-repeat property does not hold for every store
content, only for distinct ids. -/
theorem audit_pagination_duplicate_id_counterexample :
    cAuditE2 ∈ (pageChain cAuditStore cAdmin 2 0).1 ∧
    cAuditE2 ∈ (pageChain cAuditStore cAdmin 2 1).1 := by
  have hsv : sortedVisible cAuditStore cAdmin = [cAuditE1, cAuditE2, cAuditE3] := by
    unfold sortedVisible
    rw [show visibleFor cAuditStore cAdmin = [cAuditE1, cAuditE2, cAuditE3] from by
      unfold visibleFor
      rw [if_pos (show cAdmin.role = "admin" from rfl)]
      rfl]
    refine List.mergeSort_of_sorted
      (List.Pairwise.cons ?_ (List.Pairwise.cons ?_
        (List.Pairwise.cons ?_ List.Pairwise.nil)))
    · intro b hb
      rw [List.mem_cons, List.mem_singleton] at hb
      rcases hb with rfl | rfl
      · exact decide_eq_true (String.le_iff_toList_le.mpr (by decide))
      · exact decide_eq_true (String.le_iff_toList_le.mpr (by decide))
    · intro b hb
      rw [List.mem_singleton] at hb
      subst hb
      exact decide_eq_true (String.le_iff_toList_le.mpr (by decide))
    · intro b hb
      exact absurd hb (List.not_mem_nil b)
  have h0 : pageChain cAuditStore cAdmin 2 0 = ([cAuditE1, cAuditE2], some "x") := by
    show list_events cAuditStore cAdmin 2 none = _
    unfold list_events
    rw [hsv]
    decide
  have h1 : pageChain cAuditStore cAdmin 2 1 = ([cAuditE2, cAuditE3], none) := by
    rw [show pageChain cAuditStore cAdmin 2 1 =
      (match (pageChain cAuditStore cAdmin 2 0).2 with
        | some c => list_events cAuditStore cAdmin 2 (some c)
        | none => ([], none)) from rfl, h0]
    show list_events cAuditStore cAdmin 2 (some "x") = _
    unfold list_events
    rw [hsv]
    decide
  exact ⟨by rw [h0]; decide, by rw [h1]; decide⟩

/-! ## C6 — feature extraction robustness -/

/-- C6: the claim "extract_features never raises" fails on the code — a
snapshot whose `cluster_metrics` field is a truthy non-mapping (here the
int 5) slips past the `or {}` falsy-guard and raises AttributeError at
`cluster_metrics.get("cpu_usage")`; by contrast the documented robust path
(a missing snapshot) does return the all-zero vector. The spec's §4.1/§7
"never fails — malformed data degrades to zero" is the documented intent,
so the raise is a code bug, not a spec error. -/
theorem extract_features_nondict_cluster_metrics_raises :
    extract_features (some [("cluster_metrics", PyVal.int 5)]) Option.none Option.none
      (fun _ => Option.none) 0 = .error .attributeError ∧
    extract_features Option.none Option.none Option.none (fun _ => Option.none) 7 =
      .ok { cpu_usage := .finite 0, memory_usage := .finite 0,
            storage_usage := .finite 0, network_io := .finite 0,
            anomaly_count := 0, timestamp := 7 } := by
  constructor
  · rfl
  · rfl

end AdvDash
